import Mathlib

/-!
# Verification of the `accelerated` backends of llama2.go

Shallow embedding of `accelerated/cpu/cpu.go`, `accelerated/blackcl/blackcl.go`
and `accelerated/opencl/blackcl.go` (the interface of `accelerated/opencl.go`
is the common signature of the three `MatMul`s).

* A Go slice `[]float32` is a `List α`.  The element type `α` is kept abstract:
  the code only uses `0`, `+` and `*` on it, in a fixed order, and no algebraic
  law of these operations is ever assumed.
* Go `int` arguments (`n`, `d`, `size`) are `Int`.  A slice index is valid when
  `0 ≤ k < len`; any other index aborts the call with a run-time panic.
* A Go call of result type `error` ends in one of three ways, `Ret`: it returns
  `nil`, it returns an error value, or it panics.
-/

namespace Accelerated

/-- Places where the code builds an error with `fmt.Errorf("...: %w", err)`. -/
inductive Site where
  /-- Message "failed to release device" -/
  | releaseDevice
  /-- Message "failed to create buffer" -/
  | createBuffer
  /-- Message "failed to create xout device vector" -/
  | xoutVector
  /-- Message "failed to create x device vector" -/
  | xVector
  /-- Message "failed to create w device vector" -/
  | wVector
  /-- Message "failed to copy x to device" -/
  | copyX
  /-- Message "failed to copy w to device" -/
  | copyW
  /-- Message "failed to run kernel" -/
  | runKernel
  /-- Message "failed to run matmul" -/
  | runMatmul
  /-- Message "failed to get xout data" -/
  | xoutData
  deriving DecidableEq

/-- Go `error` values produced by the backends. -/
inductive Error where
  /-- an error reported by the device library, with its status code -/
  | device (code : Nat)
  /-- the result of `fmt.Errorf("<site>: %w", inner)` -/
  | wrap (site : Site) (inner : Error)
  /-- the result of `fmt.Errorf("... xout length must be %d, got %d", d, len(xout))` -/
  | xoutLength (d : Int) (got : Nat)
  deriving DecidableEq

/-- The three ways a Go call of result type `error` can end. -/
inductive Ret where
  /-- Go `return nil` -/
  | nil
  /-- Go `return err` with `err != nil` -/
  | err (e : Error)
  /-- run-time panic (index out of range) -/
  | panic
  deriving DecidableEq

/-- Slice read `s[k]`: `none` stands for the index-out-of-range panic. -/
def index? {α : Type} (s : List α) (k : Int) : Option α :=
  if 0 ≤ k then s[k.toNat]? else none

/-- Slice write `s[k] = v`: `none` stands for the index-out-of-range panic. -/
def store? {α : Type} (s : List α) (k : Int) (v : α) : Option (List α) :=
  if 0 ≤ k ∧ k < s.length then some (s.set k.toNat v) else none

namespace cpu

/-- The inner loop of `CPU.MatMul`,
`for j := 0; j < n; j++ { val += w[i*n+j] * x[j] }`,
entered with `rem` iterations still to run, the counter at `j` and the
accumulator at `val`.  `none` is the index-out-of-range panic.  (No index
computation can wrap around: the indices `i*n+j` read from `w` are the
consecutive numbers 0, 1, 2, ..., and the first one beyond `len(w)` panics.) -/
def innerLoop {α : Type} [Add α] [Mul α] (x w : List α) (i n : Int) :
    Nat → Int → α → Option α
  | 0, _, val => some val
  | rem + 1, j, val =>
    match index? w (i * n + j), index? x j with
    | some wv, some xv => innerLoop x w i n rem (j + 1) (val + wv * xv)
    | _, _ => none

/-- The outer loop of `CPU.MatMul`,
`for i := 0; i < d; i++ { val = 0; <inner loop>; xout[i] = val }`,
entered with `rem` iterations still to run and the counter at `i`.  The
second component is the content of `xout` when the call ends. -/
def outerLoop {α : Type} [Zero α] [Add α] [Mul α] (x w : List α) (n : Int) :
    Nat → Int → List α → Ret × List α
  | 0, _, xout => (Ret.nil, xout)
  | rem + 1, i, xout =>
    match innerLoop x w i n n.toNat 0 0 with
    | none => (Ret.panic, xout)
    | some val =>
      match store? xout i val with
      | none => (Ret.panic, xout)
      | some xout1 => outerLoop x w n rem (i + 1) xout1

/-- Go `func (*CPU) MatMul(xout, x, w []float32, n, d int) error`.  The loop
`for i := 0; i < d; i++` runs `d.toNat` times (not at all for `d ≤ 0`), the
inner one `n.toNat` times.  Returns how the call ends and the final `xout`. -/
def MatMul {α : Type} [Zero α] [Add α] [Mul α] (xout x w : List α) (n d : Int) :
    Ret × List α :=
  outerLoop x w n d.toNat 0 xout

end cpu

/-! ## The device library as seen by the backends

`gitlab.com/microo8/blackcl` is a third-party library.  The backends only see
its API.  Every call into it is recorded, in program order, in a log, and what
the device answers is a parameter `Env` the code has no control over. -/

/-- A `*blackcl.Vector`: `id` is the identity of the handle (the number of
vectors created before it), `size` the length it was created with. -/
structure Vector where
  id : Nat
  size : Int
  deriving DecidableEq

/-- Calls into the device library, with their outcome. -/
inductive Event where
  /-- Go `device.NewVector(size)`; `none` when it returned an error -/
  | newVector (size : Int) (res : Option Vector)
  /-- Go `v.Copy(data)` with `len(data) = len`: the transfer is started -/
  | copy (v : Vector) (len : Nat)
  /-- receive from the channel returned by `v.Copy`: the transfer resolved -/
  | copyDone (v : Vector) (ok : Bool)
  /-- Go `kernel.Global(globalSize).Local(localSize).Run(xout, x, w, uint32(n))` -/
  | run (globalSize localSize : Int) (xout x w : Vector) (n : Int)
  /-- receive from the channel returned by `Run` -/
  | runDone (ok : Bool)
  /-- Go `v.Data()` -/
  | data (v : Vector) (ok : Bool)
  /-- Go `device.Release()` -/
  | releaseDevice (ok : Bool)
  /-- Go `v.Release()` -/
  | releaseVector (v : Vector) (ok : Bool)
  deriving DecidableEq

/-- What the device answers.  `fault k` is the status of the call made when `k`
calls were already logged (`none`: success, `some c`: error with code `c`);
`mem k i` is element `i` of the vector read back by a `Data()` made then. -/
structure Env (α : Type) where
  fault : Nat → Option Nat
  mem : Nat → Nat → α

/-- State of a `*blackcl.Device`: how many vectors it has created and the log
of the calls made so far. -/
structure Device where
  allocated : Nat
  log : List Event
  deriving DecidableEq

/-- Appends an event to the log. -/
def Device.record (dev : Device) (e : Event) : Device :=
  { dev with log := dev.log ++ [e] }

/-- Go `device.NewVector(size)`: an error, or a vector that did not exist before. -/
def Device.NewVector {α : Type} (env : Env α) (dev : Device) (size : Int) :
    Except Error Vector × Device :=
  match env.fault dev.log.length with
  | some c => (Except.error (Error.device c), dev.record (Event.newVector size none))
  | none =>
    let v : Vector := { id := dev.allocated, size := size }
    (Except.ok v,
      { allocated := dev.allocated + 1, log := dev.log ++ [Event.newVector size (some v)] })

/-- Go `v.Copy(data)`: starts the transfer and returns its channel at once. -/
def Vector.Copy {α : Type} (dev : Device) (v : Vector) (data : List α) : Device :=
  dev.record (Event.copy v data.length)

/-- Go `<-ch` for the channel `ch` returned by `v.Copy`: blocks until the
transfer has resolved and yields its error, if any. -/
def Vector.CopyWait {α : Type} (env : Env α) (dev : Device) (v : Vector) :
    Option Error × Device :=
  match env.fault dev.log.length with
  | some c => (some (Error.device c), dev.record (Event.copyDone v false))
  | none => (none, dev.record (Event.copyDone v true))

/-- Go `<-kernel.Global(globalSize).Local(localSize).Run(xout, x, w, uint32(n))`:
dispatches the kernel and blocks on the channel it returns.  The conversion
`uint32(n)` keeps the low 32 bits of `n`. -/
def Kernel.Run {α : Type} (env : Env α) (dev : Device) (globalSize localSize : Int)
    (xout x w : Vector) (n : Int) : Option Error × Device :=
  let dev1 := dev.record (Event.run globalSize localSize xout x w (n % 2 ^ 32))
  match env.fault dev1.log.length with
  | some c => (some (Error.device c), dev1.record (Event.runDone false))
  | none => (none, dev1.record (Event.runDone true))

/-- Go `v.Data()`: an error, or a fresh host slice of `v.size` elements read
back from the device.  (`MatMul` only creates vectors of size `len(...)`, so
the size is never negative there.) -/
def Vector.Data {α : Type} (env : Env α) (dev : Device) (v : Vector) :
    Except Error (List α) × Device :=
  match env.fault dev.log.length with
  | some c => (Except.error (Error.device c), dev.record (Event.data v false))
  | none =>
    (Except.ok ((List.range v.size.toNat).map (env.mem dev.log.length)),
      dev.record (Event.data v true))

/-- Go `device.Release()`. -/
def Device.Release {α : Type} (env : Env α) (dev : Device) : Option Error × Device :=
  match env.fault dev.log.length with
  | some c => (some (Error.device c), dev.record (Event.releaseDevice false))
  | none => (none, dev.record (Event.releaseDevice true))

/-- Go `v.Release()`. -/
def Vector.Release {α : Type} (env : Env α) (dev : Device) (v : Vector) :
    Option Error × Device :=
  match env.fault dev.log.length with
  | some c => (some (Error.device c), dev.record (Event.releaseVector v false))
  | none => (none, dev.record (Event.releaseVector v true))

/-! ## Go maps -/

/-- Map read `m[k]` with the `ok` flag: `none` when the key is absent. -/
def mapGet {κ ν : Type} [DecidableEq κ] : List (κ × ν) → κ → Option ν
  | [], _ => none
  | (k1, v1) :: rest, k => if k1 = k then some v1 else mapGet rest k

/-- Map write `m[k] = v`. -/
def mapSet {κ ν : Type} [DecidableEq κ] : List (κ × ν) → κ → ν → List (κ × ν)
  | [], k, v => [(k, v)]
  | (k1, v1) :: rest, k, v =>
    if k1 = k then (k, v) :: rest else (k1, v1) :: mapSet rest k v

/-- The type of `bufferCache`, `map[string]map[int]*blackcl.Vector`. -/
abbrev Cache := List (String × List (Int × Vector))

/-- The two-level read `cache[tag][size]` with the `ok` flag (reading a
missing inner map yields "absent"). -/
def cached (cache : Cache) (tag : String) (size : Int) : Option Vector :=
  match mapGet cache tag with
  | none => none
  | some m => mapGet m size

/-- Go `type OpenCL struct { device; kernel; bufferCache }` of the packages
`blackcl` and `opencl`, after `SetupContext`.  The kernel handle carries no
state of its own: its dispatches are recorded in the device log. -/
structure OpenCL where
  device : Device
  bufferCache : Cache
  deriving DecidableEq

/-- Go `func New() *OpenCL` followed by a successful `SetupContext`. -/
def New : OpenCL :=
  { device := { allocated := 0, log := [] }, bufferCache := [] }

/-- Go `const localGroupSize = 64` (both packages). -/
def localGroupSize : Int := 64

/-- The loop `for i := 0; i < d; i++ { xout[i] = xoutHost[i] }` ending both
`MatMul`s, entered with `rem` iterations to run and the counter at `i`. -/
def copyBack {α : Type} (xoutHost : List α) : Nat → Int → List α → Ret × List α
  | 0, _, xout => (Ret.nil, xout)
  | rem + 1, i, xout =>
    match index? xoutHost i with
    | none => (Ret.panic, xout)
    | some v =>
      match store? xout i v with
      | none => (Ret.panic, xout)
      | some xout1 => copyBack xoutHost rem (i + 1) xout1

namespace blackcl

/-- Go `func (o *OpenCL) Release() error`.  The order in which `range` visits a Go
map is unspecified; the model visits the entries in list order. -/
def Release {α : Type} (env : Env α) (o : OpenCL) : Ret × OpenCL :=
  match Device.Release env o.device with
  | (some err, dev) => (Ret.err (Error.wrap Site.releaseDevice err), { o with device := dev })
  | (none, dev) =>
    let dev1 := o.bufferCache.foldl
      (fun dev0 bufferMap =>
        bufferMap.2.foldl (fun dev00 buffer => (Vector.Release env dev00 buffer.2).2) dev0)
      dev
    (Ret.nil, { o with device := dev1 })

/-- Go `func (o *OpenCL) Buffer(bufferTag string, size int) (*blackcl.Vector, error)`. -/
def Buffer {α : Type} (env : Env α) (o : OpenCL) (bufferTag : String) (size : Int) :
    Except Error Vector × OpenCL :=
  let cache1 : Cache :=
    match mapGet o.bufferCache bufferTag with
    | none => mapSet o.bufferCache bufferTag []
    | some _ => o.bufferCache
  match cached cache1 bufferTag size with
  | none =>
    match Device.NewVector env o.device size with
    | (Except.error err, dev) =>
      (Except.error (Error.wrap Site.createBuffer err), { device := dev, bufferCache := cache1 })
    | (Except.ok buffer, dev) =>
      (Except.ok buffer,
        { device := dev,
          bufferCache :=
            mapSet cache1 bufferTag (mapSet ((mapGet cache1 bufferTag).getD []) size buffer) })
  | some buffer => (Except.ok buffer, { o with bufferCache := cache1 })

/-- The launch geometry `(globalSize, localSize)` computed in `MatMul`:
`globalSize := d; localSize := 1;`
`if globalSize%localGroupSize != 0 { globalSize /= localGroupSize; localSize = localGroupSize }`.
Go's `%` and `/` on `int` truncate toward zero. -/
def geometry (d : Int) : Int × Int :=
  if Int.tmod d localGroupSize ≠ 0 then (Int.tdiv d localGroupSize, localGroupSize) else (d, 1)

/-- Go `func (o *OpenCL) MatMul(xout, x, w []float32, n, d int) error`.  Returns how
the call ends, the final content of `xout`, and the final state of `o`. -/
def MatMul {α : Type} (env : Env α) (o : OpenCL) (xout x w : List α) (n d : Int) :
    Ret × List α × OpenCL :=
  if (xout.length : Int) ≠ d then
    (Ret.err (Error.xoutLength d xout.length), xout, o)
  else
    match Buffer env o "xout" xout.length with
    | (Except.error err, o1) => (Ret.err (Error.wrap Site.xoutVector err), xout, o1)
    | (Except.ok xoutDev, o1) =>
      match Buffer env o1 "x" x.length with
      | (Except.error err, o2) => (Ret.err (Error.wrap Site.xVector err), xout, o2)
      | (Except.ok xDev, o2) =>
        let o3 : OpenCL := { o2 with device := Vector.Copy o2.device xDev x }
        match Buffer env o3 "w" w.length with
        | (Except.error err, o4) => (Ret.err (Error.wrap Site.wVector err), xout, o4)
        | (Except.ok wDev, o4) =>
          let dev5 := Vector.Copy o4.device wDev w
          match Vector.CopyWait env dev5 xDev with
          | (some err, dev6) =>
            (Ret.err (Error.wrap Site.copyX err), xout, { o4 with device := dev6 })
          | (none, dev6) =>
            match Vector.CopyWait env dev6 wDev with
            | (some err, dev7) =>
              (Ret.err (Error.wrap Site.copyW err), xout, { o4 with device := dev7 })
            | (none, dev7) =>
              match Kernel.Run env dev7 (geometry d).1 (geometry d).2 xoutDev xDev wDev n with
              | (some err, dev8) =>
                (Ret.err (Error.wrap Site.runKernel err), xout, { o4 with device := dev8 })
              | (none, dev8) =>
                match Vector.Data env dev8 xoutDev with
                | (Except.error err, dev9) =>
                  (Ret.err (Error.wrap Site.xoutData err), xout, { o4 with device := dev9 })
                | (Except.ok xoutHost, dev9) =>
                  let r := copyBack xoutHost d.toNat 0 xout
                  (r.1, r.2, { o4 with device := dev9 })

end blackcl

namespace opencl

/-- Go `func (o *OpenCL) Release() error`.  The order in which `range` visits a Go
map is unspecified; the model visits the entries in list order. -/
def Release {α : Type} (env : Env α) (o : OpenCL) : Ret × OpenCL :=
  match Device.Release env o.device with
  | (some err, dev) => (Ret.err (Error.wrap Site.releaseDevice err), { o with device := dev })
  | (none, dev) =>
    let dev1 := o.bufferCache.foldl
      (fun dev0 bufferMap =>
        bufferMap.2.foldl (fun dev00 buffer => (Vector.Release env dev00 buffer.2).2) dev0)
      dev
    (Ret.nil, { o with device := dev1 })

/-- Go `func (o *OpenCL) AllocBuffer(bufferTag string, size int) (*blackcl.Vector, error)`. -/
def AllocBuffer {α : Type} (env : Env α) (o : OpenCL) (bufferTag : String) (size : Int) :
    Except Error Vector × OpenCL :=
  let cache1 : Cache :=
    match mapGet o.bufferCache bufferTag with
    | none => mapSet o.bufferCache bufferTag []
    | some _ => o.bufferCache
  match cached cache1 bufferTag size with
  | none =>
    match Device.NewVector env o.device size with
    | (Except.error err, dev) =>
      (Except.error (Error.wrap Site.createBuffer err), { device := dev, bufferCache := cache1 })
    | (Except.ok buffer, dev) =>
      (Except.ok buffer,
        { device := dev,
          bufferCache :=
            mapSet cache1 bufferTag (mapSet ((mapGet cache1 bufferTag).getD []) size buffer) })
  | some buffer => (Except.ok buffer, { o with bufferCache := cache1 })

/-- The launch geometry `(globalSize, localSize)` computed in `MatMulDevMem`:
`globalSize := d; localSize := 1;`
`if globalSize%localGroupSize != 0 { globalSize /= localGroupSize; localSize = localGroupSize }`.
Go's `%` and `/` on `int` truncate toward zero. -/
def geometry (d : Int) : Int × Int :=
  if Int.tmod d localGroupSize ≠ 0 then (Int.tdiv d localGroupSize, localGroupSize) else (d, 1)

/-- Go `func (o *OpenCL) MatMulDevMem(xout, x, w *blackcl.Vector, n, d int) <-chan error`
together with the receive from the channel it returns: the goroutine it
starts dispatches the kernel with the geometry computed from `d`, waits for
it, and sends the (wrapped) error or `nil`. -/
def MatMulDevMem {α : Type} (env : Env α) (o : OpenCL) (xout x w : Vector) (n d : Int) :
    Option Error × OpenCL :=
  match Kernel.Run env o.device (geometry d).1 (geometry d).2 xout x w n with
  | (some err, dev) => (some (Error.wrap Site.runMatmul err), { o with device := dev })
  | (none, dev) => (none, { o with device := dev })

/-- Go `func (o *OpenCL) MatMul(xout, x, w []float32, n, d int) error`.  Returns how
the call ends, the final content of `xout`, and the final state of `o`. -/
def MatMul {α : Type} (env : Env α) (o : OpenCL) (xout x w : List α) (n d : Int) :
    Ret × List α × OpenCL :=
  if (xout.length : Int) ≠ d then
    (Ret.err (Error.xoutLength d xout.length), xout, o)
  else
    match AllocBuffer env o "xout" xout.length with
    | (Except.error err, o1) => (Ret.err (Error.wrap Site.xoutVector err), xout, o1)
    | (Except.ok xoutDev, o1) =>
      match AllocBuffer env o1 "x" x.length with
      | (Except.error err, o2) => (Ret.err (Error.wrap Site.xVector err), xout, o2)
      | (Except.ok xDev, o2) =>
        let o3 : OpenCL := { o2 with device := Vector.Copy o2.device xDev x }
        match AllocBuffer env o3 "w" w.length with
        | (Except.error err, o4) => (Ret.err (Error.wrap Site.wVector err), xout, o4)
        | (Except.ok wDev, o4) =>
          let dev5 := Vector.Copy o4.device wDev w
          match Vector.CopyWait env dev5 xDev with
          | (some err, dev6) =>
            (Ret.err (Error.wrap Site.copyX err), xout, { o4 with device := dev6 })
          | (none, dev6) =>
            match Vector.CopyWait env dev6 wDev with
            | (some err, dev7) =>
              (Ret.err (Error.wrap Site.copyW err), xout, { o4 with device := dev7 })
            | (none, dev7) =>
              match MatMulDevMem env { o4 with device := dev7 } xoutDev xDev wDev n d with
              | (some err, o8) => (Ret.err err, xout, o8)
              | (none, o8) =>
                match Vector.Data env o8.device xoutDev with
                | (Except.error err, dev9) =>
                  (Ret.err (Error.wrap Site.xoutData err), xout, { o8 with device := dev9 })
                | (Except.ok xoutHost, dev9) =>
                  let r := copyBack xoutHost d.toNat 0 xout
                  (r.1, r.2, { o8 with device := dev9 })

end opencl

/-! ## Specification-side definitions -/

/-- Sequential left-to-right sum, starting from `0`, of the products
`row[j] * x[j]`. -/
def seqDot {α : Type} [Zero α] [Add α] [Mul α] (row x : List α) : α :=
  (row.zip x).foldl (fun acc p => acc + p.1 * p.2) 0

/-- Row `i` of the row-major matrix `w` with rows of length `n`:
`w[i*n .. i*n+n)`. -/
def row {α : Type} (w : List α) (n i : Nat) : List α :=
  (w.drop (i * n)).take n

/-- Whether an event is a kernel dispatch. -/
def Event.isRun : Event → Bool
  | Event.run _ _ _ _ _ _ => true
  | _ => false

/-- Whether an event is a call of `NewVector`. -/
def Event.isNewVector : Event → Bool
  | Event.newVector _ _ => true
  | _ => false

/-- Well-formedness of the buffer cache with respect to the device: the vector
registered under `(tag, size)` was created with that size by this device, and
no vector is registered under two different keys. -/
def CacheWF (o : OpenCL) : Prop :=
  (∀ t s v, cached o.bufferCache t s = some v → v.size = s ∧ v.id < o.device.allocated) ∧
  (∀ t s t1 s1 v, cached o.bufferCache t s = some v → cached o.bufferCache t1 s1 = some v →
      t = t1 ∧ s = s1)

/-- Runs a sequence of acquire calls one after the other, each in the state
left by the one before; the result lists what each call returned. -/
def acquireAll (acquire : OpenCL → String → Int → Except Error Vector × OpenCL) :
    OpenCL → List (String × Int) → List (Except Error Vector) × OpenCL
  | o, [] => ([], o)
  | o, (tag, size) :: rest =>
    let r := acquire o tag size
    let rs := acquireAll acquire r.2 rest
    (r.1 :: rs.1, rs.2)

/-- The possible courses of one `MatMul` call of the `blackcl` and `opencl`
packages, on host slices of lengths `xlen` and `wlen` and with launch geometry
`geo`: the events logged, how the call ends, and the final content of `xout`.
`base` is the length of the log before the call and `wf` the well-formedness
of the cache before the call. -/
inductive Shape {α : Type} (env : Env α) (xlen wlen : Nat) (geo : Int × Int) (n d : Int)
    (xout : List α) (wf : Prop) (base : Nat) : List Event → Ret → List α → Prop where
  | invalid : (xout.length : Int) ≠ d →
      Shape env xlen wlen geo n d xout wf base [] (Ret.err (Error.xoutLength d xout.length)) xout
  | acquire (p1 : List Event) (e : Error) : (∀ ev ∈ p1, ev.isNewVector = true) →
      Shape env xlen wlen geo n d xout wf base p1 (Ret.err e) xout
  | acquireW (p1 p2 : List Event) (xDev : Vector) (e : Error) :
      (∀ ev ∈ p1, ev.isNewVector = true) → (∀ ev ∈ p2, ev.isNewVector = true) →
      Shape env xlen wlen geo n d xout wf base (p1 ++ Event.copy xDev xlen :: p2) (Ret.err e) xout
  | copyX (p1 p2 : List Event) (xDev wDev : Vector) (e : Error) :
      (∀ ev ∈ p1, ev.isNewVector = true) → (∀ ev ∈ p2, ev.isNewVector = true) →
      Shape env xlen wlen geo n d xout wf base
        (p1 ++ Event.copy xDev xlen :: (p2 ++ [Event.copy wDev wlen, Event.copyDone xDev false]))
        (Ret.err e) xout
  | copyW (p1 p2 : List Event) (xDev wDev : Vector) (e : Error) :
      (∀ ev ∈ p1, ev.isNewVector = true) → (∀ ev ∈ p2, ev.isNewVector = true) →
      Shape env xlen wlen geo n d xout wf base
        (p1 ++ Event.copy xDev xlen :: (p2 ++ [Event.copy wDev wlen, Event.copyDone xDev true,
          Event.copyDone wDev false]))
        (Ret.err e) xout
  | run (p1 p2 : List Event) (xoutDev xDev wDev : Vector) (e : Error) :
      (∀ ev ∈ p1, ev.isNewVector = true) → (∀ ev ∈ p2, ev.isNewVector = true) →
      Shape env xlen wlen geo n d xout wf base
        (p1 ++ Event.copy xDev xlen :: (p2 ++ [Event.copy wDev wlen, Event.copyDone xDev true,
          Event.copyDone wDev true]) ++
          [Event.run geo.1 geo.2 xoutDev xDev wDev (n % 2 ^ 32), Event.runDone false])
        (Ret.err e) xout
  | data (p1 p2 : List Event) (xoutDev xDev wDev : Vector) (e : Error) :
      (∀ ev ∈ p1, ev.isNewVector = true) → (∀ ev ∈ p2, ev.isNewVector = true) →
      Shape env xlen wlen geo n d xout wf base
        (p1 ++ Event.copy xDev xlen :: (p2 ++ [Event.copy wDev wlen, Event.copyDone xDev true,
          Event.copyDone wDev true]) ++
          [Event.run geo.1 geo.2 xoutDev xDev wDev (n % 2 ^ 32), Event.runDone true,
            Event.data xoutDev false])
        (Ret.err e) xout
  | done (p1 p2 : List Event) (xoutDev xDev wDev : Vector) (k : Nat) :
      (∀ ev ∈ p1, ev.isNewVector = true) → (∀ ev ∈ p2, ev.isNewVector = true) →
      (xout.length : Int) = d → (wf → xoutDev.size = xout.length) →
      k = base + (p1.length + 1 + (p2.length + 3) + 2) →
      Shape env xlen wlen geo n d xout wf base
        (p1 ++ Event.copy xDev xlen :: (p2 ++ [Event.copy wDev wlen, Event.copyDone xDev true,
          Event.copyDone wDev true]) ++
          [Event.run geo.1 geo.2 xoutDev xDev wDev (n % 2 ^ 32), Event.runDone true,
            Event.data xoutDev true])
        (copyBack ((List.range xoutDev.size.toNat).map (env.mem k)) d.toNat 0 xout).1
        (copyBack ((List.range xoutDev.size.toNat).map (env.mem k)) d.toNat 0 xout).2

/-- The dispatch-ordering property of the events `evs` logged by one `MatMul`
call on host slices of lengths `xlen` and `wlen` that ended with `r`:
whatever precedes a kernel dispatch on the input buffers `b` and `c` contains
the start of the transfer into `b`, then the start of the transfer into `c`,
and ends with the successful resolution of both; and if a transfer resolved
with an error, the call returned an error and logged no dispatch. -/
def DispatchAfterTransfers (xlen wlen : Nat) (evs : List Event) (r : Ret) : Prop :=
  (∀ pre post g l a b c m, evs = pre ++ Event.run g l a b c m :: post →
      ∃ p1 p2, pre = p1 ++ Event.copy b xlen ::
        (p2 ++ [Event.copy c wlen, Event.copyDone b true, Event.copyDone c true])) ∧
  ((∃ v, Event.copyDone v false ∈ evs) →
      (∃ e, r = Ret.err e) ∧ ∀ g l a b c m, Event.run g l a b c m ∉ evs)

/-- The all-or-nothing property of the outcome `res` of one `MatMul` call
made in state `o` on the host slice `xout`: an error return leaves `xout` as it
was; and from a well-formed cache the call does not panic, and when it returns
`nil` then `len(xout) = d` and every element of `xout` has been overwritten
with what the last logged call, the `Data()` read-back, delivered. -/
def XoutAllOrNothing {α : Type} (env : Env α) (o : OpenCL) (xout : List α) (d : Int)
    (res : Ret × List α × OpenCL) : Prop :=
  (∀ e, res.1 = Ret.err e → res.2.1 = xout) ∧
  (CacheWF o →
    (res.1 = Ret.nil ∨ ∃ e, res.1 = Ret.err e) ∧
    (res.1 = Ret.nil → (xout.length : Int) = d ∧
      res.2.1 = (List.range xout.length).map (env.mem (res.2.2.device.log.length - 1))))

/-- The reuse property of an acquire function on the sequence `calls` run from
state `o`: every call is answered; two successful calls returned the identical
buffer exactly when they were made with the same `(tag, size)`; and in the
state reached, each pair that was acquired, asked for again, is answered with
the buffer it was given, the state (cache, allocation count, log) staying as
it is. -/
def CacheReuse (acquire : OpenCL → String → Int → Except Error Vector × OpenCL)
    (o : OpenCL) (calls : List (String × Int)) : Prop :=
  (acquireAll acquire o calls).1.length = calls.length ∧
  (∀ (i j : Nat) (c1 c2 : String × Int) (v1 v2 : Vector),
    calls[i]? = some c1 → calls[j]? = some c2 →
    (acquireAll acquire o calls).1[i]? = some (Except.ok v1) →
    (acquireAll acquire o calls).1[j]? = some (Except.ok v2) → (v1 = v2 ↔ c1 = c2)) ∧
  (∀ (i : Nat) (c : String × Int) (v : Vector), calls[i]? = some c →
    (acquireAll acquire o calls).1[i]? = some (Except.ok v) →
    acquire (acquireAll acquire o calls).2 c.1 c.2
      = (Except.ok v, (acquireAll acquire o calls).2))

/-- The sum `((0 + w[i*n+0]*x[0]) + w[i*n+1]*x[1]) + ... + w[i*n+(n-1)]*x[n-1]`,
taken in this order. -/
def rowSum {α : Type} [Zero α] [Add α] [Mul α] (w x : List α) (n i : Nat) : α :=
  (List.range n).foldl (fun acc j => acc + w.getD (i * n + j) 0 * x.getD j 0) 0

/-- A device on which every call succeeds; a read-back delivers `0, 1, 2, ...`. -/
def quietEnv : Env Int :=
  { fault := fun _ => none, mem := fun _ i => (i : Int) }

/-- A device on which exactly one call fails, with status 7: the one made when
`k` calls were already logged. -/
def faultyEnv (k : Nat) : Env Int :=
  { fault := fun j => if j = k then some 7 else none, mem := fun _ i => (i : Int) }

/-- The state reached from `New` by one successful `Buffer("x", 4)`: the cache
holds one buffer and the log one call. -/
def oneBuffer : OpenCL :=
  (blackcl.Buffer quietEnv New "x" 4).2

/-! ## Lemmas -/

theorem mapGet_mapSet {κ ν : Type} [DecidableEq κ] (m : List (κ × ν)) (k k1 : κ) (v : ν) :
    mapGet (mapSet m k v) k1 = if k = k1 then some v else mapGet m k1 := by
  induction m with
  | nil => simp [mapSet, mapGet]
  | cons p rest ih =>
    obtain ⟨a, b⟩ := p
    by_cases h : a = k
    · subst h
      by_cases h1 : a = k1 <;> simp [mapSet, mapGet, h1]
    · by_cases h1 : a = k1
      · subst h1
        have : ¬ k = a := fun e => h e.symm
        simp [mapSet, mapGet, h, this]
      · simp [mapSet, mapGet, h, h1, ih]

theorem cached_addTag (c : Cache) (t : String) (h : mapGet c t = none) (t1 : String) (s1 : Int) :
    cached (mapSet c t []) t1 s1 = cached c t1 s1 := by
  unfold cached
  rw [mapGet_mapSet]
  by_cases e : t = t1
  · subst e; simp [h, mapGet]
  · simp [e]

theorem cached_register (c : Cache) (t : String) (s : Int) (v : Vector) (t1 : String) (s1 : Int) :
    cached (mapSet c t (mapSet ((mapGet c t).getD []) s v)) t1 s1
      = if t = t1 ∧ s = s1 then some v else cached c t1 s1 := by
  unfold cached
  rw [mapGet_mapSet]
  by_cases e : t = t1
  · subst e
    simp only [if_true, true_and, mapGet_mapSet]
    by_cases e1 : s = s1
    · simp [e1]
    · cases h : mapGet c t <;> simp [e1, mapGet]
  · simp [e]

/-- The three ways `Buffer` can go. -/
theorem blackcl.Buffer_spec {α : Type} (env : Env α) (o : OpenCL) (t : String) (s : Int) :
    (∃ v, cached o.bufferCache t s = some v ∧ blackcl.Buffer env o t s = (Except.ok v, o)) ∨
    (∃ c o1, cached o.bufferCache t s = none ∧ env.fault o.device.log.length = some c ∧
      blackcl.Buffer env o t s = (Except.error (Error.wrap Site.createBuffer (Error.device c)), o1) ∧
      o1.device = o.device.record (Event.newVector s none) ∧
      ∀ t1 s1, cached o1.bufferCache t1 s1 = cached o.bufferCache t1 s1) ∨
    (∃ o1, cached o.bufferCache t s = none ∧ env.fault o.device.log.length = none ∧
      blackcl.Buffer env o t s = (Except.ok ⟨o.device.allocated, s⟩, o1) ∧
      o1.device = { allocated := o.device.allocated + 1,
                    log := o.device.log ++ [Event.newVector s (some ⟨o.device.allocated, s⟩)] } ∧
      ∀ t1 s1, cached o1.bufferCache t1 s1
        = if t = t1 ∧ s = s1 then some ⟨o.device.allocated, s⟩ else cached o.bufferCache t1 s1) := by
  cases hc : cached o.bufferCache t s with
  | some v =>
    left
    refine ⟨v, rfl, ?_⟩
    have ht : ∃ m, mapGet o.bufferCache t = some m := by
      unfold cached at hc
      cases h : mapGet o.bufferCache t with
      | none => simp [h] at hc
      | some m => exact ⟨m, rfl⟩
    obtain ⟨m, hm⟩ := ht
    simp [blackcl.Buffer, hm, hc]
  | none =>
    right
    have key : ∀ t1 s1, cached (match mapGet o.bufferCache t with
        | none => mapSet o.bufferCache t []
        | some _ => o.bufferCache) t1 s1 = cached o.bufferCache t1 s1 := by
      intro t1 s1
      cases h : mapGet o.bufferCache t with
      | none => simp only; exact cached_addTag _ _ h _ _
      | some m => rfl
    cases hf : env.fault o.device.log.length with
    | some c =>
      left
      refine ⟨c, { device := o.device.record (Event.newVector s none),
                   bufferCache := (match mapGet o.bufferCache t with
                      | none => mapSet o.bufferCache t []
                      | some _ => o.bufferCache) }, rfl, rfl, ?_, rfl, key⟩
      simp only [blackcl.Buffer, key, hc, Device.NewVector, hf]
    | none =>
      right
      refine ⟨{ device := { allocated := o.device.allocated + 1,
                            log := o.device.log ++ [Event.newVector s (some ⟨o.device.allocated, s⟩)] },
                bufferCache := mapSet (match mapGet o.bufferCache t with
                      | none => mapSet o.bufferCache t []
                      | some _ => o.bufferCache) t
                    (mapSet ((mapGet (match mapGet o.bufferCache t with
                      | none => mapSet o.bufferCache t []
                      | some _ => o.bufferCache) t).getD []) s ⟨o.device.allocated, s⟩) },
              rfl, rfl, ?_, rfl, ?_⟩
      · simp only [blackcl.Buffer, key, hc, Device.NewVector, hf]
      · intro t1 s1
        simp only [cached_register, key]

theorem CacheWF_congr (o o2 : OpenCL) (hc : o2.bufferCache = o.bufferCache)
    (ha : o2.device.allocated = o.device.allocated) (h : CacheWF o) : CacheWF o2 := by
  unfold CacheWF at *
  rw [hc, ha]
  exact h

theorem CacheWF_New : CacheWF New := by
  constructor <;> intro t s <;> simp [New, cached, mapGet]

/-- What one `Buffer` call does to the log, the cache and its invariant. -/
theorem blackcl.Buffer_summary {α : Type} (env : Env α) (o : OpenCL) (t : String) (s : Int) :
    ∃ evs, (blackcl.Buffer env o t s).2.device.log = o.device.log ++ evs ∧
      (∀ e ∈ evs, e.isNewVector = true) ∧
      (CacheWF o → CacheWF (blackcl.Buffer env o t s).2) ∧
      (∀ v, (blackcl.Buffer env o t s).1 = Except.ok v →
        cached (blackcl.Buffer env o t s).2.bufferCache t s = some v) ∧
      (∀ t1 s1 v1, cached o.bufferCache t1 s1 = some v1 →
        cached (blackcl.Buffer env o t s).2.bufferCache t1 s1 = some v1) := by
  rcases blackcl.Buffer_spec env o t s with ⟨v, hc, h⟩ | ⟨c, o1, hc, hf, h, hd, hk⟩ |
    ⟨o1, hc, hf, h, hd, hk⟩
  · rw [h]
    refine ⟨[], by simp, by simp, id, ?_, fun _ _ _ h => h⟩
    intro v1 hv
    simp only [Except.ok.injEq] at hv
    rw [← hv]; exact hc
  · rw [h]
    refine ⟨[Event.newVector s none], by simp [hd, Device.record], by simp [Event.isNewVector],
      ?_, by simp, ?_⟩
    · intro wf
      refine ⟨fun t1 s1 v hv => ?_, fun t1 s1 t2 s2 v h1 h2 => ?_⟩
      · simp only [hk] at hv
        simpa [hd, Device.record] using wf.1 t1 s1 v hv
      · simp only [hk] at h1 h2
        exact wf.2 t1 s1 t2 s2 v h1 h2
    · intro t1 s1 v1 hv
      simp only [hk]; exact hv
  · rw [h]
    refine ⟨[Event.newVector s (some ⟨o.device.allocated, s⟩)], by simp [hd],
      by simp [Event.isNewVector], ?_, ?_, ?_⟩
    · intro wf
      refine ⟨fun t1 s1 v hv => ?_, fun t1 s1 t2 s2 v h1 h2 => ?_⟩
      · simp only [hk] at hv
        split at hv
        · next e =>
          simp only [Option.some.injEq] at hv
          subst hv
          simp [hd, e.2]
        · have := wf.1 t1 s1 v hv
          simp only [hd]
          exact ⟨this.1, by omega⟩
      · simp only [hk] at h1 h2
        split at h1 <;> split at h2
        · next e1 e2 => exact ⟨e1.1.symm.trans e2.1, e1.2.symm.trans e2.2⟩
        · simp only [Option.some.injEq] at h1
          have := (wf.1 t2 s2 v h2).2
          rw [← h1] at this
          simp at this
        · simp only [Option.some.injEq] at h2
          have := (wf.1 t1 s1 v h1).2
          rw [← h2] at this
          simp at this
        · exact wf.2 t1 s1 t2 s2 v h1 h2
    · intro v hv
      simp only [Except.ok.injEq] at hv
      simp [hk, hv]
    · intro t1 s1 v1 hv
      simp only [hk]
      split
      · next e =>
        rw [← e.1, ← e.2, hc] at hv
        cases hv
      · exact hv

theorem Vector.CopyWait_spec {α : Type} (env : Env α) (dev : Device) (v : Vector) :
    (∃ c, Vector.CopyWait env dev v
        = (some (Error.device c), dev.record (Event.copyDone v false))) ∨
    Vector.CopyWait env dev v = (none, dev.record (Event.copyDone v true)) := by
  unfold Vector.CopyWait
  cases env.fault dev.log.length with
  | none => right; rfl
  | some c => left; exact ⟨c, rfl⟩

theorem Kernel.Run_spec {α : Type} (env : Env α) (dev : Device) (g l : Int)
    (a b c : Vector) (n : Int) :
    (∃ k, Kernel.Run env dev g l a b c n
        = (some (Error.device k),
            (dev.record (Event.run g l a b c (n % 2 ^ 32))).record (Event.runDone false))) ∨
    Kernel.Run env dev g l a b c n
        = (none, (dev.record (Event.run g l a b c (n % 2 ^ 32))).record (Event.runDone true)) := by
  unfold Kernel.Run
  simp only
  cases env.fault (dev.record (Event.run g l a b c (n % 2 ^ 32))).log.length with
  | none => right; rfl
  | some k => left; exact ⟨k, rfl⟩

theorem Vector.Data_spec {α : Type} (env : Env α) (dev : Device) (v : Vector) :
    (∃ c, Vector.Data env dev v
        = (Except.error (Error.device c), dev.record (Event.data v false))) ∨
    Vector.Data env dev v
        = (Except.ok ((List.range v.size.toNat).map (env.mem dev.log.length)),
            dev.record (Event.data v true)) := by
  unfold Vector.Data
  cases env.fault dev.log.length with
  | none => right; rfl
  | some c => left; exact ⟨c, rfl⟩

theorem blackcl.MatMul_shape {α : Type} (env : Env α) (o : OpenCL) (xout x w : List α)
    (n d : Int) :
    ∃ evs, (blackcl.MatMul env o xout x w n d).2.2.device.log = o.device.log ++ evs ∧
      (CacheWF o → CacheWF (blackcl.MatMul env o xout x w n d).2.2) ∧
      Shape env x.length w.length (blackcl.geometry d) n d xout (CacheWF o) o.device.log.length
        evs (blackcl.MatMul env o xout x w n d).1 (blackcl.MatMul env o xout x w n d).2.1 := by
  unfold blackcl.MatMul
  split
  · next hlen => exact ⟨[], by simp, id, Shape.invalid hlen⟩
  · next hlen =>
    obtain ⟨e1, hl1, nv1, wf1, hc1, -⟩ := blackcl.Buffer_summary env o "xout" xout.length
    rcases hb1 : blackcl.Buffer env o "xout" xout.length with ⟨r1, o1⟩
    rw [hb1] at hl1 wf1 hc1
    simp only at hl1 wf1 hc1
    cases r1 with
    | error err => exact ⟨e1, hl1, wf1, Shape.acquire e1 _ nv1⟩
    | ok xoutDev =>
      simp only
      have hsz : CacheWF o → xoutDev.size = xout.length := fun wf =>
        ((wf1 wf).1 _ _ _ (hc1 xoutDev rfl)).1
      obtain ⟨e2, hl2, nv2, wf2, -, -⟩ := blackcl.Buffer_summary env o1 "x" x.length
      rcases hb2 : blackcl.Buffer env o1 "x" x.length with ⟨r2, o2⟩
      rw [hb2] at hl2 wf2
      simp only at hl2 wf2
      have nv12 : ∀ ev ∈ e1 ++ e2, ev.isNewVector = true := by
        intro ev hev
        rcases List.mem_append.1 hev with h | h
        · exact nv1 ev h
        · exact nv2 ev h
      cases r2 with
      | error err =>
        exact ⟨e1 ++ e2, by rw [hl2, hl1, List.append_assoc], fun wf => wf2 (wf1 wf),
          Shape.acquire _ _ nv12⟩
      | ok xDev =>
        simp only
        obtain ⟨e3, hl3, nv3, wf3, -, -⟩ := blackcl.Buffer_summary env
          { o2 with device := Vector.Copy o2.device xDev x } "w" w.length
        rcases hb3 : blackcl.Buffer env { o2 with device := Vector.Copy o2.device xDev x }
          "w" w.length with ⟨r3, o4⟩
        rw [hb3] at hl3 wf3
        simp only [Vector.Copy, Device.record] at hl3 wf3
        have hl4 : o4.device.log = o.device.log ++ (e1 ++ e2 ++ Event.copy xDev x.length :: e3) := by
          rw [hl3, hl2, hl1]; simp
        have wf4 : CacheWF o → CacheWF o4 := fun wf =>
          wf3 (CacheWF_congr o2 _ rfl rfl (wf2 (wf1 wf)))
        cases r3 with
        | error err => exact ⟨_, hl4, wf4, Shape.acquireW _ _ _ _ nv12 nv3⟩
        | ok wDev =>
          simp only
          rcases Vector.CopyWait_spec env (Vector.Copy o4.device wDev w) xDev with ⟨c, h5⟩ | h5
          · rw [h5]
            refine ⟨_, ?_, fun wf => CacheWF_congr o4 _ rfl rfl (wf4 wf),
              Shape.copyX _ _ xDev wDev _ nv12 nv3⟩
            simp [Vector.Copy, Device.record, hl4]
          · rw [h5]
            simp only
            rcases Vector.CopyWait_spec env
              ((Vector.Copy o4.device wDev w).record (Event.copyDone xDev true)) wDev
              with ⟨c, h6⟩ | h6
            · rw [h6]
              refine ⟨_, ?_, fun wf => CacheWF_congr o4 _ rfl rfl (wf4 wf),
                Shape.copyW _ _ xDev wDev _ nv12 nv3⟩
              simp [Vector.Copy, Device.record, hl4]
            · rw [h6]
              simp only
              rcases Kernel.Run_spec env
                (((Vector.Copy o4.device wDev w).record (Event.copyDone xDev true)).record
                  (Event.copyDone wDev true))
                (blackcl.geometry d).1 (blackcl.geometry d).2 xoutDev xDev wDev n
                with ⟨c, h7⟩ | h7
              · rw [h7]
                refine ⟨_, ?_, fun wf => CacheWF_congr o4 _ rfl rfl (wf4 wf),
                  Shape.run _ _ xoutDev xDev wDev _ nv12 nv3⟩
                simp [Vector.Copy, Device.record, hl4]
              · rw [h7]
                simp only
                rcases Vector.Data_spec env
                  (((((Vector.Copy o4.device wDev w).record (Event.copyDone xDev true)).record
                    (Event.copyDone wDev true)).record
                    (Event.run (blackcl.geometry d).1 (blackcl.geometry d).2 xoutDev xDev wDev
                      (n % 2 ^ 32))).record (Event.runDone true)) xoutDev
                  with ⟨c, h8⟩ | h8
                · rw [h8]
                  refine ⟨_, ?_, fun wf => CacheWF_congr o4 _ rfl rfl (wf4 wf),
                    Shape.data _ _ xoutDev xDev wDev _ nv12 nv3⟩
                  simp [Vector.Copy, Device.record, hl4]
                · rw [h8]
                  simp only
                  refine ⟨_, ?_, fun wf => CacheWF_congr o4 _ rfl rfl (wf4 wf),
                    Shape.done _ _ xoutDev xDev wDev _ nv12 nv3 (not_not.1 hlen) hsz ?_⟩
                  · simp [Vector.Copy, Device.record, hl4]
                  · simp [Vector.Copy, Device.record, hl4]
                    omega

theorem opencl.AllocBuffer_eq {α : Type} (env : Env α) (o : OpenCL) (t : String) (s : Int) :
    opencl.AllocBuffer env o t s = blackcl.Buffer env o t s := rfl

theorem opencl.AllocBuffer_summary {α : Type} (env : Env α) (o : OpenCL) (t : String) (s : Int) :
    ∃ evs, (opencl.AllocBuffer env o t s).2.device.log = o.device.log ++ evs ∧
      (∀ e ∈ evs, e.isNewVector = true) ∧
      (CacheWF o → CacheWF (opencl.AllocBuffer env o t s).2) ∧
      (∀ v, (opencl.AllocBuffer env o t s).1 = Except.ok v →
        cached (opencl.AllocBuffer env o t s).2.bufferCache t s = some v) ∧
      (∀ t1 s1 v1, cached o.bufferCache t1 s1 = some v1 →
        cached (opencl.AllocBuffer env o t s).2.bufferCache t1 s1 = some v1) := by
  simp only [opencl.AllocBuffer_eq]
  exact blackcl.Buffer_summary env o t s

theorem opencl.MatMulDevMem_spec {α : Type} (env : Env α) (o : OpenCL)
    (a b c : Vector) (n d : Int) :
    (∃ k, opencl.MatMulDevMem env o a b c n d
        = (some (Error.wrap Site.runMatmul (Error.device k)),
            { o with device := (o.device.record (Event.run (opencl.geometry d).1
                (opencl.geometry d).2 a b c (n % 2 ^ 32))).record (Event.runDone false) })) ∨
    opencl.MatMulDevMem env o a b c n d
        = (none,
            { o with device := (o.device.record (Event.run (opencl.geometry d).1
                (opencl.geometry d).2 a b c (n % 2 ^ 32))).record (Event.runDone true) }) := by
  unfold opencl.MatMulDevMem
  rcases Kernel.Run_spec env o.device (opencl.geometry d).1 (opencl.geometry d).2 a b c n
    with ⟨k, h⟩ | h
  · left; exact ⟨k, by rw [h]⟩
  · right; rw [h]

theorem opencl.MatMul_shape_devmem {α : Type} (env : Env α) (o : OpenCL) (xout x w : List α)
    (n d : Int) :
    ∃ evs, (opencl.MatMul env o xout x w n d).2.2.device.log = o.device.log ++ evs ∧
      (CacheWF o → CacheWF (opencl.MatMul env o xout x w n d).2.2) ∧
      Shape env x.length w.length (opencl.geometry d) n d xout (CacheWF o) o.device.log.length
        evs (opencl.MatMul env o xout x w n d).1 (opencl.MatMul env o xout x w n d).2.1 := by
  unfold opencl.MatMul
  split
  · next hlen => exact ⟨[], by simp, id, Shape.invalid hlen⟩
  · next hlen =>
    obtain ⟨e1, hl1, nv1, wf1, hc1, -⟩ := opencl.AllocBuffer_summary env o "xout" xout.length
    rcases hb1 : opencl.AllocBuffer env o "xout" xout.length with ⟨r1, o1⟩
    rw [hb1] at hl1 wf1 hc1
    simp only at hl1 wf1 hc1
    cases r1 with
    | error err => exact ⟨e1, hl1, wf1, Shape.acquire e1 _ nv1⟩
    | ok xoutDev =>
      simp only
      have hsz : CacheWF o → xoutDev.size = xout.length := fun wf =>
        ((wf1 wf).1 _ _ _ (hc1 xoutDev rfl)).1
      obtain ⟨e2, hl2, nv2, wf2, -, -⟩ := opencl.AllocBuffer_summary env o1 "x" x.length
      rcases hb2 : opencl.AllocBuffer env o1 "x" x.length with ⟨r2, o2⟩
      rw [hb2] at hl2 wf2
      simp only at hl2 wf2
      have nv12 : ∀ ev ∈ e1 ++ e2, ev.isNewVector = true := by
        intro ev hev
        rcases List.mem_append.1 hev with h | h
        · exact nv1 ev h
        · exact nv2 ev h
      cases r2 with
      | error err =>
        exact ⟨e1 ++ e2, by rw [hl2, hl1, List.append_assoc], fun wf => wf2 (wf1 wf),
          Shape.acquire _ _ nv12⟩
      | ok xDev =>
        simp only
        obtain ⟨e3, hl3, nv3, wf3, -, -⟩ := opencl.AllocBuffer_summary env
          { o2 with device := Vector.Copy o2.device xDev x } "w" w.length
        rcases hb3 : opencl.AllocBuffer env { o2 with device := Vector.Copy o2.device xDev x }
          "w" w.length with ⟨r3, o4⟩
        rw [hb3] at hl3 wf3
        simp only [Vector.Copy, Device.record] at hl3 wf3
        have hl4 : o4.device.log = o.device.log ++ (e1 ++ e2 ++ Event.copy xDev x.length :: e3) := by
          rw [hl3, hl2, hl1]; simp
        have wf4 : CacheWF o → CacheWF o4 := fun wf =>
          wf3 (CacheWF_congr o2 _ rfl rfl (wf2 (wf1 wf)))
        cases r3 with
        | error err => exact ⟨_, hl4, wf4, Shape.acquireW _ _ _ _ nv12 nv3⟩
        | ok wDev =>
          simp only
          rcases Vector.CopyWait_spec env (Vector.Copy o4.device wDev w) xDev with ⟨c, h5⟩ | h5
          · rw [h5]
            refine ⟨_, ?_, fun wf => CacheWF_congr o4 _ rfl rfl (wf4 wf),
              Shape.copyX _ _ xDev wDev _ nv12 nv3⟩
            simp [Vector.Copy, Device.record, hl4]
          · rw [h5]
            simp only
            rcases Vector.CopyWait_spec env
              ((Vector.Copy o4.device wDev w).record (Event.copyDone xDev true)) wDev
              with ⟨c, h6⟩ | h6
            · rw [h6]
              refine ⟨_, ?_, fun wf => CacheWF_congr o4 _ rfl rfl (wf4 wf),
                Shape.copyW _ _ xDev wDev _ nv12 nv3⟩
              simp [Vector.Copy, Device.record, hl4]
            · rw [h6]
              simp only
              rcases opencl.MatMulDevMem_spec env
                { o4 with device := ((Vector.Copy o4.device wDev w).record
                    (Event.copyDone xDev true)).record (Event.copyDone wDev true) }
                xoutDev xDev wDev n d
                with ⟨c, h7⟩ | h7
              · rw [h7]
                refine ⟨_, ?_, fun wf => CacheWF_congr o4 _ rfl rfl (wf4 wf),
                  Shape.run _ _ xoutDev xDev wDev _ nv12 nv3⟩
                simp [Vector.Copy, Device.record, hl4]
              · rw [h7]
                simp only
                rcases Vector.Data_spec env
                  (((((Vector.Copy o4.device wDev w).record (Event.copyDone xDev true)).record
                    (Event.copyDone wDev true)).record
                    (Event.run (opencl.geometry d).1 (opencl.geometry d).2 xoutDev xDev wDev
                      (n % 2 ^ 32))).record (Event.runDone true)) xoutDev
                  with ⟨c, h8⟩ | h8
                · rw [h8]
                  refine ⟨_, ?_, fun wf => CacheWF_congr o4 _ rfl rfl (wf4 wf),
                    Shape.data _ _ xoutDev xDev wDev _ nv12 nv3⟩
                  simp [Vector.Copy, Device.record, hl4]
                · rw [h8]
                  simp only
                  refine ⟨_, ?_, fun wf => CacheWF_congr o4 _ rfl rfl (wf4 wf),
                    Shape.done _ _ xoutDev xDev wDev _ nv12 nv3 (not_not.1 hlen) hsz ?_⟩
                  · simp [Vector.Copy, Device.record, hl4]
                  · simp [Vector.Copy, Device.record, hl4]
                    omega

theorem split_at_run (A B : List Event) (r : Event)
    (hA : ∀ e ∈ A, e.isRun = false) (hB : ∀ e ∈ B, e.isRun = false) :
    ∀ (pre post : List Event) (r1 : Event), r1.isRun = true →
      A ++ r :: B = pre ++ r1 :: post → pre = A ∧ r1 = r ∧ post = B := by
  induction A with
  | nil =>
    intro pre post r1 hr h
    cases pre with
    | nil => simp at h; simp [h]
    | cons p ps =>
      simp at h
      have : r1 ∈ B := by rw [h.2]; simp
      have := hB r1 this
      simp [hr] at this
  | cons a A ih =>
    intro pre post r1 hr h
    cases pre with
    | nil =>
      simp at h
      have := hA a (by simp)
      rw [h.1, hr] at this
      cases this
    | cons p ps =>
      simp at h
      have := ih (fun e he => hA e (by simp [he])) ps post r1 hr h.2
      simp [h.1, this]

theorem not_mem_of_isNewVector (p : List Event) (h : ∀ ev ∈ p, ev.isNewVector = true)
    (e : Event) (he : e.isNewVector = false) : e ∉ p := by
  intro hm
  rw [h e hm] at he
  cases he

theorem isRun_false_of_isNewVector (p : List Event) (h : ∀ ev ∈ p, ev.isNewVector = true) :
    ∀ ev ∈ p, ev.isRun = false := by
  intro ev hev
  have := h ev hev
  cases ev <;> simp_all [Event.isNewVector, Event.isRun]

/-- The part of the log that precedes the dispatch contains no dispatch. -/
theorem before_dispatch_no_run (p1 p2 : List Event) (xDev wDev : Vector) (xlen wlen : Nat)
    (h1 : ∀ ev ∈ p1, ev.isNewVector = true) (h2 : ∀ ev ∈ p2, ev.isNewVector = true) (b1 b2 : Bool) :
    ∀ ev ∈ p1 ++ Event.copy xDev xlen ::
        (p2 ++ [Event.copy wDev wlen, Event.copyDone xDev b1, Event.copyDone wDev b2]),
      ev.isRun = false := by
  intro ev hev
  simp only [List.mem_append, List.mem_cons, List.mem_singleton, List.not_mem_nil, or_false] at hev
  rcases hev with h | h | h | h | h | h
  · exact isRun_false_of_isNewVector p1 h1 ev h
  · rw [h]; rfl
  · exact isRun_false_of_isNewVector p2 h2 ev h
  · rw [h]; rfl
  · rw [h]; rfl
  · rw [h]; rfl

theorem no_run_split (evs : List Event) (h : ∀ e ∈ evs, e.isRun = false)
    (pre post : List Event) (g l : Int) (a b c : Vector) (m : Int) :
    evs ≠ pre ++ Event.run g l a b c m :: post := by
  intro he
  have := h (Event.run g l a b c m) (by rw [he]; simp)
  simp [Event.isRun] at this

theorem no_run_mem (evs : List Event) (h : ∀ e ∈ evs, e.isRun = false)
    (g l : Int) (a b c : Vector) (m : Int) : Event.run g l a b c m ∉ evs := by
  intro he
  have := h _ he
  simp [Event.isRun] at this

theorem Shape.dispatch {α : Type} {env : Env α} {xlen wlen : Nat} {geo : Int × Int} {n d : Int}
    {xout : List α} {wf : Prop} {base : Nat} {evs : List Event} {r : Ret} {xout1 : List α}
    (h : Shape env xlen wlen geo n d xout wf base evs r xout1) :
    DispatchAfterTransfers xlen wlen evs r := by
  cases h with
  | invalid hlen =>
    exact ⟨fun pre post g l a b c m he => by simp at he, fun ⟨v, hv⟩ => by simp at hv⟩
  | acquire _ e h1 =>
    refine ⟨fun pre post g l a b c m he =>
      absurd he (no_run_split _ (isRun_false_of_isNewVector evs h1) _ _ _ _ _ _ _ _), ?_⟩
    rintro ⟨v, hv⟩
    exact absurd hv (not_mem_of_isNewVector evs h1 _ rfl)
  | acquireW p1 p2 xDev e h1 h2 =>
    have nr : ∀ ev ∈ p1 ++ Event.copy xDev xlen :: p2, ev.isRun = false := by
      intro ev hev
      simp only [List.mem_append, List.mem_cons] at hev
      rcases hev with h | h | h
      · exact isRun_false_of_isNewVector p1 h1 ev h
      · rw [h]; rfl
      · exact isRun_false_of_isNewVector p2 h2 ev h
    refine ⟨fun pre post g l a b c m he => absurd he (no_run_split _ nr _ _ _ _ _ _ _ _), ?_⟩
    rintro ⟨v, hv⟩
    simp only [List.mem_append, List.mem_cons] at hv
    rcases hv with h | h | h
    · exact absurd h (not_mem_of_isNewVector p1 h1 _ rfl)
    · cases h
    · exact absurd h (not_mem_of_isNewVector p2 h2 _ rfl)
  | copyX p1 p2 xDev wDev e h1 h2 =>
    have nr := before_dispatch_no_run p1 p2 xDev wDev xlen wlen h1 h2 false false
    have nr1 : ∀ ev ∈ p1 ++ Event.copy xDev xlen ::
        (p2 ++ [Event.copy wDev wlen, Event.copyDone xDev false]), ev.isRun = false := by
      intro ev hev
      apply nr ev
      simp only [List.mem_append, List.mem_cons, List.mem_singleton, List.not_mem_nil,
        or_false] at hev ⊢
      tauto
    exact ⟨fun pre post g l a b c m he => absurd he (no_run_split _ nr1 _ _ _ _ _ _ _ _),
      fun _ => ⟨⟨e, rfl⟩, no_run_mem _ nr1⟩⟩
  | copyW p1 p2 xDev wDev e h1 h2 =>
    have nr := before_dispatch_no_run p1 p2 xDev wDev xlen wlen h1 h2 true false
    exact ⟨fun pre post g l a b c m he => absurd he (no_run_split _ nr _ _ _ _ _ _ _ _),
      fun _ => ⟨⟨e, rfl⟩, no_run_mem _ nr⟩⟩
  | run p1 p2 xoutDev xDev wDev e h1 h2 =>
    have nr := before_dispatch_no_run p1 p2 xDev wDev xlen wlen h1 h2 true true
    constructor
    · intro pre post g l a b c m he
      have := split_at_run _ [Event.runDone false] _ nr (by simp [Event.isRun]) pre post
        (Event.run g l a b c m) rfl he
      simp only [Event.run.injEq] at this
      obtain ⟨hp, ⟨-, -, -, hb, hc, -⟩, -⟩ := this
      subst hb hc
      exact ⟨p1, p2, hp⟩
    · rintro ⟨v, hv⟩
      exfalso
      simp only [List.mem_append, List.mem_cons, List.mem_singleton, List.not_mem_nil,
        or_false] at hv
      rcases hv with (h | h | h | h | h | h) | h | h
      · exact not_mem_of_isNewVector p1 h1 (Event.copyDone v false) rfl h
      · cases h
      · exact not_mem_of_isNewVector p2 h2 (Event.copyDone v false) rfl h
      · cases h
      · cases h
      · cases h
      · cases h
      · cases h
  | data p1 p2 xoutDev xDev wDev e h1 h2 =>
    have nr := before_dispatch_no_run p1 p2 xDev wDev xlen wlen h1 h2 true true
    constructor
    · intro pre post g l a b c m he
      have := split_at_run _ [Event.runDone true, Event.data xoutDev false] _ nr
        (by simp [Event.isRun]) pre post (Event.run g l a b c m) rfl he
      simp only [Event.run.injEq] at this
      obtain ⟨hp, ⟨-, -, -, hb, hc, -⟩, -⟩ := this
      subst hb hc
      exact ⟨p1, p2, hp⟩
    · rintro ⟨v, hv⟩
      exfalso
      simp only [List.mem_append, List.mem_cons, List.mem_singleton, List.not_mem_nil,
        or_false] at hv
      rcases hv with (h | h | h | h | h | h) | h | h | h
      · exact not_mem_of_isNewVector p1 h1 (Event.copyDone v false) rfl h
      · cases h
      · exact not_mem_of_isNewVector p2 h2 (Event.copyDone v false) rfl h
      · cases h
      · cases h
      · cases h
      · cases h
      · cases h
      · cases h
  | done p1 p2 xoutDev xDev wDev k h1 h2 hlen hsz hk =>
    have nr := before_dispatch_no_run p1 p2 xDev wDev xlen wlen h1 h2 true true
    constructor
    · intro pre post g l a b c m he
      have := split_at_run _ [Event.runDone true, Event.data xoutDev true] _ nr
        (by simp [Event.isRun]) pre post (Event.run g l a b c m) rfl he
      simp only [Event.run.injEq] at this
      obtain ⟨hp, ⟨-, -, -, hb, hc, -⟩, -⟩ := this
      subst hb hc
      exact ⟨p1, p2, hp⟩
    · rintro ⟨v, hv⟩
      exfalso
      simp only [List.mem_append, List.mem_cons, List.mem_singleton, List.not_mem_nil,
        or_false] at hv
      rcases hv with (h | h | h | h | h | h) | h | h | h
      · exact not_mem_of_isNewVector p1 h1 (Event.copyDone v false) rfl h
      · cases h
      · exact not_mem_of_isNewVector p2 h2 (Event.copyDone v false) rfl h
      · cases h
      · cases h
      · cases h
      · cases h
      · cases h
      · cases h

theorem index?_natCast {α : Type} (s : List α) (k : Nat) : index? s (k : Int) = s[k]? := by
  simp [index?]

theorem store?_natCast {α : Type} (s : List α) (k : Nat) (v : α) (h : k < s.length) :
    store? s (k : Int) v = some (s.set k v) := by
  simp [store?, h]

theorem take_succ_set {α : Type} (l : List α) (i : Nat) (v : α) (h : i < l.length) :
    (l.set i v).take (i + 1) = l.take i ++ [v] := by
  rw [List.set_eq_take_append_cons_drop, if_pos h, List.take_append_eq_append_take]
  have e : (List.take i l).length = i := by simp; omega
  rw [e]
  simp

theorem copyBack_eq {α : Type} (host : List α) :
    ∀ (rem i : Nat) (xout : List α), i + rem ≤ host.length → i + rem ≤ xout.length →
      copyBack host rem (i : Int) xout
        = (Ret.nil, xout.take i ++ (host.drop i).take rem ++ xout.drop (i + rem)) := by
  intro rem
  induction rem with
  | zero => intro i xout _ _; simp [copyBack]
  | succ rem ih =>
    intro i xout hh hx
    have hi : i < xout.length := by omega
    have hj : i < host.length := by omega
    have e2 : ((i : Int) + 1) = ((i + 1 : Nat) : Int) := by push_cast; ring
    rw [copyBack, index?_natCast, List.getElem?_eq_getElem hj]
    simp only
    rw [store?_natCast _ _ _ hi]
    simp only
    rw [e2, ih (i + 1) _ (by omega) (by simp; omega)]
    rw [take_succ_set _ _ _ hi, List.drop_set_of_lt _ _ (by omega),
      show i + 1 + rem = i + (rem + 1) by omega, List.drop_eq_getElem_cons hj]
    simp only [List.take_succ_cons, List.append_assoc, List.cons_append, List.nil_append]

theorem copyBack_ne_err {α : Type} (host : List α) (e : Error) :
    ∀ (rem : Nat) (i : Int) (xout : List α), (copyBack host rem i xout).1 ≠ Ret.err e := by
  intro rem
  induction rem with
  | zero => intro i xout; simp [copyBack]
  | succ rem ih =>
    intro i xout
    rw [copyBack]
    split
    · simp
    · split
      · simp
      · exact ih _ _

theorem copyBack_all {α : Type} (host xout : List α) (h : host.length = xout.length) :
    copyBack host xout.length 0 xout = (Ret.nil, host) := by
  have := copyBack_eq host xout.length 0 xout (by omega) (by omega)
  simp only [Nat.cast_zero] at this
  rw [this]
  simp [← h]

theorem Shape.result {α : Type} {env : Env α} {xlen wlen : Nat} {geo : Int × Int} {n d : Int}
    {xout : List α} {wf : Prop} {base : Nat} {evs : List Event} {r : Ret} {xout1 : List α}
    (h : Shape env xlen wlen geo n d xout wf base evs r xout1) :
    (∀ e, r = Ret.err e → xout1 = xout) ∧
    (wf → (r = Ret.nil ∨ ∃ e, r = Ret.err e) ∧
      (r = Ret.nil → (xout.length : Int) = d ∧
        xout1 = (List.range xout.length).map (env.mem (base + evs.length - 1)))) := by
  cases h with
  | invalid hlen => exact ⟨fun _ _ => rfl, fun _ => ⟨Or.inr ⟨_, rfl⟩, fun h => by cases h⟩⟩
  | acquire _ e h1 => exact ⟨fun _ _ => rfl, fun _ => ⟨Or.inr ⟨_, rfl⟩, fun h => by cases h⟩⟩
  | acquireW p1 p2 xDev e h1 h2 =>
    exact ⟨fun _ _ => rfl, fun _ => ⟨Or.inr ⟨_, rfl⟩, fun h => by cases h⟩⟩
  | copyX p1 p2 xDev wDev e h1 h2 =>
    exact ⟨fun _ _ => rfl, fun _ => ⟨Or.inr ⟨_, rfl⟩, fun h => by cases h⟩⟩
  | copyW p1 p2 xDev wDev e h1 h2 =>
    exact ⟨fun _ _ => rfl, fun _ => ⟨Or.inr ⟨_, rfl⟩, fun h => by cases h⟩⟩
  | run p1 p2 xoutDev xDev wDev e h1 h2 =>
    exact ⟨fun _ _ => rfl, fun _ => ⟨Or.inr ⟨_, rfl⟩, fun h => by cases h⟩⟩
  | data p1 p2 xoutDev xDev wDev e h1 h2 =>
    exact ⟨fun _ _ => rfl, fun _ => ⟨Or.inr ⟨_, rfl⟩, fun h => by cases h⟩⟩
  | done p1 p2 xoutDev xDev wDev k h1 h2 hlen hsz hk =>
    have hd : d.toNat = xout.length := by omega
    have key : wf → copyBack ((List.range xoutDev.size.toNat).map (env.mem k)) d.toNat 0 xout
        = (Ret.nil, (List.range xout.length).map (env.mem k)) := by
      intro hwf
      have hs := hsz hwf
      have hs2 : xoutDev.size.toNat = xout.length := by omega
      rw [hd, hs2]
      exact copyBack_all _ _ (by simp)
    have hk2 : base + (p1 ++ Event.copy xDev xlen :: (p2 ++ [Event.copy wDev wlen,
        Event.copyDone xDev true, Event.copyDone wDev true]) ++
        [Event.run geo.1 geo.2 xoutDev xDev wDev (n % 2 ^ 32), Event.runDone true,
          Event.data xoutDev true]).length - 1 = k := by
      simp only [List.length_append, List.length_cons, List.length_nil]
      omega
    constructor
    · intro e he
      exact absurd he (copyBack_ne_err _ _ _ _ _)
    · intro hwf
      rw [key hwf, hk2]
      exact ⟨Or.inl rfl, fun _ => ⟨hlen, rfl⟩⟩

theorem Vector.Release_log {α : Type} (env : Env α) (dev : Device) (v : Vector) :
    ∃ ok, (Vector.Release env dev v).2.log = dev.log ++ [Event.releaseVector v ok] := by
  unfold Vector.Release
  cases env.fault dev.log.length with
  | none => exact ⟨true, rfl⟩
  | some c => exact ⟨false, rfl⟩

/-- The inner loop of `Release` frees every buffer of one inner map. -/
theorem releaseInner_log {α : Type} (env : Env α) (m : List (Int × Vector)) :
    ∀ dev : Device, ∃ evs,
      (m.foldl (fun dev00 buffer => (Vector.Release env dev00 buffer.2).2) dev).log
        = dev.log ++ evs ∧
      ∀ sv ∈ m, ∃ ok, Event.releaseVector sv.2 ok ∈ evs := by
  induction m with
  | nil => intro dev; exact ⟨[], by simp, by simp⟩
  | cons p rest ih =>
    intro dev
    obtain ⟨ok, h1⟩ := Vector.Release_log env dev p.2
    obtain ⟨evs, h2, h3⟩ := ih (Vector.Release env dev p.2).2
    refine ⟨Event.releaseVector p.2 ok :: evs, ?_, ?_⟩
    · simp only [List.foldl_cons]
      rw [h2, h1]
      simp
    · intro sv hsv
      rcases List.mem_cons.1 hsv with h | h
      · exact ⟨ok, by rw [h]; simp⟩
      · obtain ⟨ok1, h4⟩ := h3 sv h
        exact ⟨ok1, by simp [h4]⟩

/-- The outer loop of `Release` frees every buffer of every inner map. -/
theorem releaseOuter_log {α : Type} (env : Env α) (cache : Cache) :
    ∀ dev : Device, ∃ evs,
      (cache.foldl (fun dev0 bufferMap =>
          bufferMap.2.foldl (fun dev00 buffer => (Vector.Release env dev00 buffer.2).2) dev0)
        dev).log = dev.log ++ evs ∧
      ∀ tm ∈ cache, ∀ sv ∈ tm.2, ∃ ok, Event.releaseVector sv.2 ok ∈ evs := by
  induction cache with
  | nil => intro dev; exact ⟨[], by simp, by simp⟩
  | cons p rest ih =>
    intro dev
    obtain ⟨e1, h1, m1⟩ := releaseInner_log env p.2 dev
    obtain ⟨e2, h2, m2⟩ := ih
      (p.2.foldl (fun dev00 buffer => (Vector.Release env dev00 buffer.2).2) dev)
    refine ⟨e1 ++ e2, ?_, ?_⟩
    · simp only [List.foldl_cons]
      rw [h2, h1]
      simp
    · intro tm htm sv hsv
      rcases List.mem_cons.1 htm with h | h
      · subst h
        obtain ⟨ok, hk⟩ := m1 sv hsv
        exact ⟨ok, by simp [hk]⟩
      · obtain ⟨ok, hk⟩ := m2 tm h sv hsv
        exact ⟨ok, by simp [hk]⟩

theorem blackcl.Release_spec {α : Type} (env : Env α) (o : OpenCL) :
    (env.fault o.device.log.length = none →
      (blackcl.Release env o).1 = Ret.nil ∧
      ∃ evs, (blackcl.Release env o).2.device.log
          = o.device.log ++ Event.releaseDevice true :: evs ∧
        ∀ tm ∈ o.bufferCache, ∀ sv ∈ tm.2, ∃ ok, Event.releaseVector sv.2 ok ∈ evs) ∧
    (∀ c, env.fault o.device.log.length = some c →
      (blackcl.Release env o).1 = Ret.err (Error.wrap Site.releaseDevice (Error.device c)) ∧
      ∃ evs, (blackcl.Release env o).2.device.log
          = o.device.log ++ Event.releaseDevice false :: evs) := by
  constructor
  · intro hf
    obtain ⟨evs, h1, h2⟩ := releaseOuter_log env o.bufferCache
      (o.device.record (Event.releaseDevice true))
    simp only [blackcl.Release, Device.Release, hf]
    exact ⟨trivial, evs, by rw [h1]; simp [Device.record], h2⟩
  · intro c hf
    simp only [blackcl.Release, Device.Release, hf]
    exact ⟨trivial, [], by simp [Device.record]⟩

theorem opencl.Release_eq {α : Type} (env : Env α) (o : OpenCL) :
    opencl.Release env o = blackcl.Release env o := rfl

theorem Vector.Release_allocated {α : Type} (env : Env α) (dev : Device) (v : Vector) :
    (Vector.Release env dev v).2.allocated = dev.allocated := by
  unfold Vector.Release
  cases env.fault dev.log.length <;> rfl

theorem releaseInner_allocated {α : Type} (env : Env α) (m : List (Int × Vector)) :
    ∀ dev : Device,
      (m.foldl (fun dev00 buffer => (Vector.Release env dev00 buffer.2).2) dev).allocated
        = dev.allocated := by
  induction m with
  | nil => intro dev; rfl
  | cons p rest ih =>
    intro dev
    simp only [List.foldl_cons]
    rw [ih, Vector.Release_allocated]

theorem releaseOuter_allocated {α : Type} (env : Env α) (cache : Cache) :
    ∀ dev : Device,
      (cache.foldl (fun dev0 bufferMap =>
          bufferMap.2.foldl (fun dev00 buffer => (Vector.Release env dev00 buffer.2).2) dev0)
        dev).allocated = dev.allocated := by
  induction cache with
  | nil => intro dev; rfl
  | cons p rest ih =>
    intro dev
    simp only [List.foldl_cons]
    rw [ih, releaseInner_allocated]

/-- The cache invariant holds in `New` (`CacheWF_New`) and is kept by every
operation of the backend: `Buffer` (`blackcl.Buffer_summary`), `MatMul` and
`Release`.  It therefore holds in every state the backend can reach. -/
theorem CacheWF_invariant {α : Type} (env : Env α) (o : OpenCL) (wf : CacheWF o)
    (xout x w : List α) (n d : Int) :
    CacheWF (blackcl.MatMul env o xout x w n d).2.2 ∧
    CacheWF (opencl.MatMul env o xout x w n d).2.2 ∧
    CacheWF (blackcl.Release env o).2 ∧ CacheWF (opencl.Release env o).2 := by
  have hr : CacheWF (blackcl.Release env o).2 := by
    apply CacheWF_congr o _ _ _ wf
    · unfold blackcl.Release Device.Release
      cases env.fault o.device.log.length <;> rfl
    · unfold blackcl.Release Device.Release
      cases env.fault o.device.log.length with
      | none => simp only [releaseOuter_allocated]; rfl
      | some c => rfl
  refine ⟨?_, ?_, hr, hr⟩
  · obtain ⟨_, -, h, -⟩ := blackcl.MatMul_shape env o xout x w n d
    exact h wf
  · obtain ⟨_, -, h, -⟩ := opencl.MatMul_shape_devmem env o xout x w n d
    exact h wf

theorem blackcl.Buffer_hit {α : Type} (env : Env α) (o : OpenCL) (t : String) (s : Int)
    (v : Vector) (h : cached o.bufferCache t s = some v) :
    blackcl.Buffer env o t s = (Except.ok v, o) := by
  rcases blackcl.Buffer_spec env o t s with ⟨v1, hc, hb⟩ | ⟨c, o1, hc, -⟩ | ⟨o1, hc, -⟩
  · rw [h] at hc
    simp only [Option.some.injEq] at hc
    rw [hb, hc]
  · rw [h] at hc; cases hc
  · rw [h] at hc; cases hc

theorem acquireAll_inv {α : Type} (env : Env α) :
    ∀ (calls : List (String × Int)) (o : OpenCL), CacheWF o →
      CacheWF (acquireAll (blackcl.Buffer env) o calls).2 ∧
      (∀ t s v, cached o.bufferCache t s = some v →
        cached (acquireAll (blackcl.Buffer env) o calls).2.bufferCache t s = some v) ∧
      List.Forall₂
        (fun c r => ∀ v, r = Except.ok v →
          cached (acquireAll (blackcl.Buffer env) o calls).2.bufferCache c.1 c.2 = some v)
        calls (acquireAll (blackcl.Buffer env) o calls).1 := by
  intro calls
  induction calls with
  | nil =>
    intro o wf
    exact ⟨wf, fun _ _ _ h => h, List.Forall₂.nil⟩
  | cons c rest ih =>
    intro o wf
    obtain ⟨t, s⟩ := c
    obtain ⟨evs, -, -, wf1, hc1, mono1⟩ := blackcl.Buffer_summary env o t s
    obtain ⟨wf3, mono3, all3⟩ := ih (blackcl.Buffer env o t s).2 (wf1 wf)
    simp only [acquireAll]
    exact ⟨wf3, fun t1 s1 v1 h => mono3 _ _ _ (mono1 _ _ _ h),
      List.Forall₂.cons (fun v hv => mono3 _ _ _ (hc1 v hv)) all3⟩

theorem forall₂_getElem? {β γ : Type} (R : β → γ → Prop) :
    ∀ (l1 : List β) (l2 : List γ), List.Forall₂ R l1 l2 →
      ∀ (i : Nat) (b : β) (c : γ), l1[i]? = some b → l2[i]? = some c → R b c := by
  intro l1 l2 h
  induction h with
  | nil => intro i b c h1; simp at h1
  | cons hr _ ih =>
    intro i b c h1 h2
    cases i with
    | zero =>
      simp only [List.getElem?_cons_zero, Option.some.injEq] at h1 h2
      rw [← h1, ← h2]; exact hr
    | succ i =>
      simp only [List.getElem?_cons_succ] at h1 h2
      exact ih i b c h1 h2

theorem blackcl.Buffer_reuse {α : Type} (env : Env α) (o : OpenCL) (calls : List (String × Int))
    (wf : CacheWF o) : CacheReuse (blackcl.Buffer env) o calls := by
  unfold CacheReuse
  obtain ⟨wf1, -, all⟩ := acquireAll_inv env calls o wf
  have key := forall₂_getElem? _ calls _ all
  refine ⟨all.length_eq.symm, ?_, ?_⟩
  · intro i j c1 c2 v1 v2 hc1 hc2 hv1 hv2
    have k1 := key i c1 _ hc1 hv1 v1 rfl
    have k2 := key j c2 _ hc2 hv2 v2 rfl
    constructor
    · intro e
      subst e
      have := wf1.2 _ _ _ _ _ k1 k2
      exact Prod.ext this.1 this.2
    · intro e
      subst e
      rw [k1] at k2
      exact Option.some.inj k2
  · intro i c v hc hv
    exact blackcl.Buffer_hit env _ c.1 c.2 v (key i c _ hc hv v rfl)

theorem store?_natCast_none {α : Type} (s : List α) (k : Nat) (v : α) (h : s.length ≤ k) :
    store? s (k : Int) v = none := by
  simp [store?]; omega

theorem cpu.innerLoop_eq {α : Type} [Add α] [Mul α] (x w : List α) (i n : Nat) :
    ∀ (rem j : Nat) (val : α), j + rem ≤ x.length → i * n + j + rem ≤ w.length →
      cpu.innerLoop x w (i : Int) (n : Int) rem (j : Int) val
        = some ((((w.drop (i * n + j)).take rem).zip (x.drop j)).foldl
            (fun acc p => acc + p.1 * p.2) val) := by
  intro rem
  induction rem with
  | zero => intro j val _ _; simp [cpu.innerLoop]
  | succ rem ih =>
    intro j val hx hw
    have hj : j < x.length := by omega
    have hk : i * n + j < w.length := by omega
    have e1 : ((i : Int) * (n : Int) + (j : Int)) = ((i * n + j : Nat) : Int) := by
      push_cast; ring
    have e2 : ((j : Int) + 1) = ((j + 1 : Nat) : Int) := by push_cast; ring
    rw [cpu.innerLoop, e1, index?_natCast, index?_natCast, List.getElem?_eq_getElem hk,
      List.getElem?_eq_getElem hj]
    simp only
    rw [e2, ih (j + 1) _ (by omega) (by omega)]
    rw [List.drop_eq_getElem_cons hk, List.drop_eq_getElem_cons hj]
    simp only [List.take_succ_cons, List.zip_cons_cons, List.foldl_cons, Nat.add_assoc]

theorem cpu.innerLoop_sum {α : Type} [Zero α] [Add α] [Mul α] (x w : List α) (i n : Nat) :
    ∀ (rem j : Nat) (val : α), j + rem ≤ x.length → i * n + j + rem ≤ w.length →
      cpu.innerLoop x w (i : Int) (n : Int) rem (j : Int) val
        = some ((List.range' j rem).foldl
            (fun acc j => acc + w.getD (i * n + j) 0 * x.getD j 0) val) := by
  intro rem
  induction rem with
  | zero => intro j val _ _; simp [cpu.innerLoop]
  | succ rem ih =>
    intro j val hx hw
    have hj : j < x.length := by omega
    have hk : i * n + j < w.length := by omega
    have e1 : ((i : Int) * (n : Int) + (j : Int)) = ((i * n + j : Nat) : Int) := by
      push_cast; ring
    have e2 : ((j : Int) + 1) = ((j + 1 : Nat) : Int) := by push_cast; ring
    rw [cpu.innerLoop, e1, index?_natCast, index?_natCast, List.getElem?_eq_getElem hk,
      List.getElem?_eq_getElem hj]
    simp only
    rw [e2, ih (j + 1) _ (by omega) (by omega)]
    simp only [List.range'_succ, List.foldl_cons, List.getD_eq_getElem _ _ hk,
      List.getD_eq_getElem _ _ hj]

theorem cpu.innerLoop_row {α : Type} [Zero α] [Add α] [Mul α] (x w : List α) (i n : Nat)
    (hx : n ≤ x.length) (hw : i * n + n ≤ w.length) :
    cpu.innerLoop x w (i : Int) (n : Int) (n : Int).toNat 0 0 = some (seqDot (row w n i) x) := by
  have h := cpu.innerLoop_eq x w i n n 0 0 (by omega) (by omega)
  simpa [seqDot, row] using h

theorem seqDot_row_eq_rowSum {α : Type} [Zero α] [Add α] [Mul α] (x w : List α) (i n : Nat)
    (hx : n ≤ x.length) (hw : i * n + n ≤ w.length) :
    seqDot (row w n i) x = rowSum w x n i := by
  have h1 := cpu.innerLoop_row x w i n hx hw
  have h2 := cpu.innerLoop_sum x w i n n 0 0 (by omega) (by omega)
  simp only [Int.toNat_ofNat, Nat.cast_zero] at h1 h2
  rw [h1] at h2
  simpa [rowSum, List.range_eq_range'] using h2

theorem cpu.outerLoop_eq {α : Type} [Zero α] [Add α] [Mul α] (x w : List α) (n : Nat)
    (hx : n ≤ x.length) :
    ∀ (rem i : Nat) (xout : List α), i + rem ≤ xout.length → (i + rem) * n ≤ w.length →
      cpu.outerLoop x w (n : Int) rem (i : Int) xout
        = (Ret.nil, xout.take i ++ (List.range' i rem).map (fun k => seqDot (row w n k) x)
            ++ xout.drop (i + rem)) := by
  intro rem
  induction rem with
  | zero => intro i xout _ _; simp [cpu.outerLoop]
  | succ rem ih =>
    intro i xout hlen hw
    have hi : i < xout.length := by omega
    have hw1 : i * n + n ≤ w.length := by
      have : (i + 1) * n ≤ (i + (rem + 1)) * n := Nat.mul_le_mul_right n (by omega)
      have e : (i + 1) * n = i * n + n := by ring
      omega
    have e2 : ((i : Int) + 1) = ((i + 1 : Nat) : Int) := by push_cast; ring
    rw [cpu.outerLoop, cpu.innerLoop_row x w i n hx hw1]
    simp only
    rw [store?_natCast _ _ _ hi]
    simp only
    rw [e2, ih (i + 1) _ (by simp; omega)
      (by rw [show i + 1 + rem = i + (rem + 1) by omega]; exact hw)]
    simp only [List.range'_succ, List.map_cons]
    rw [take_succ_set _ _ _ hi, List.drop_set_of_lt _ _ (by omega),
      show i + 1 + rem = i + (rem + 1) by omega]
    simp

theorem cpu.MatMul_eq {α : Type} [Zero α] [Add α] [Mul α] (xout x w : List α) (n d : Nat)
    (hout : d ≤ xout.length) (hx : n ≤ x.length) (hw : d * n ≤ w.length) :
    cpu.MatMul xout x w (n : Int) (d : Int)
      = (Ret.nil, (List.range d).map (fun i => seqDot (row w n i) x) ++ xout.drop d) := by
  have h := cpu.outerLoop_eq x w n hx d 0 xout (by omega) (by simpa using hw)
  simp only [Nat.cast_zero] at h
  simp [cpu.MatMul, h, List.range_eq_range']

theorem cpu.outerLoop_ne_err {α : Type} [Zero α] [Add α] [Mul α] (x w : List α) (n : Int)
    (e : Error) :
    ∀ (rem : Nat) (i : Int) (xout : List α), (cpu.outerLoop x w n rem i xout).1 ≠ Ret.err e := by
  intro rem
  induction rem with
  | zero => intro i xout; simp [cpu.outerLoop]
  | succ rem ih =>
    intro i xout
    rw [cpu.outerLoop]
    split
    · simp
    · split
      · simp
      · exact ih _ _

/-- With a slice `xout` shorter than `d` (and `x`, `w` long enough for the
rows reached), the call panics at `xout[len(xout)] = val`. -/
theorem cpu.outerLoop_short {α : Type} [Zero α] [Add α] [Mul α] (x w : List α) (n : Nat)
    (hx : n ≤ x.length) :
    ∀ (rem i : Nat) (xout : List α), i ≤ xout.length → xout.length < i + rem →
      (xout.length + 1) * n ≤ w.length →
      (cpu.outerLoop x w (n : Int) rem (i : Int) xout).1 = Ret.panic := by
  intro rem
  induction rem with
  | zero => intro i xout h1 h2; omega
  | succ rem ih =>
    intro i xout h1 h2 hw
    have hw1 : i * n + n ≤ w.length := by
      have : (i + 1) * n ≤ (xout.length + 1) * n := Nat.mul_le_mul_right n (by omega)
      have e : (i + 1) * n = i * n + n := by ring
      omega
    have e2 : ((i : Int) + 1) = ((i + 1 : Nat) : Int) := by push_cast; ring
    rw [cpu.outerLoop, cpu.innerLoop_row x w i n hx hw1]
    simp only
    by_cases hi : i < xout.length
    · rw [store?_natCast _ _ _ hi]
      simp only
      rw [e2]
      exact ih (i + 1) _ (by simp; omega) (by simp; omega) (by simpa using hw)
    · rw [store?_natCast_none _ _ _ (by omega)]

/-! ## The claims -/

/-- C1: for all `n, d ≥ 0` and slices with `len(xout) = d`, `len(x) = n`,
`len(w) = n*d`, `cpu.MatMul` returns `nil` and leaves in `xout[i]`, for every
`i < d`, the sequential left-to-right sum from `0` of `w[i*n+j] * x[j]`,
`j = 0..n-1`, which is the sequential dot product of row `w[i*n .. i*n+n)` with
`x`; over the integers, `n=4, d=2, w=[1..8], x=[1,1,1,1]` gives `[10, 26]`. -/
theorem cpu_MatMul_sequential_rows {α : Type} [Zero α] [Add α] [Mul α]
    (n d : Nat) (xout x w : List α)
    (hout : xout.length = d) (hx : x.length = n) (hw : w.length = n * d) :
    cpu.MatMul xout x w (n : Int) (d : Int)
        = (Ret.nil, (List.range d).map (fun i => rowSum w x n i))
      ∧ (∀ i, i < d → rowSum w x n i = seqDot (row w n i) x)
      ∧ cpu.MatMul (α := Int) [0, 0] [1, 1, 1, 1] [1, 2, 3, 4, 5, 6, 7, 8] 4 2
        = (Ret.nil, [10, 26]) := by
  have rows : ∀ i, i < d → rowSum w x n i = seqDot (row w n i) x := by
    intro i hi
    have h1 : (i + 1) * n ≤ d * n := Nat.mul_le_mul_right n (by omega)
    have h2 : (i + 1) * n = i * n + n := by ring
    have h3 : d * n = n * d := Nat.mul_comm d n
    exact (seqDot_row_eq_rowSum x w i n (by omega) (by omega)).symm
  refine ⟨?_, rows, by decide⟩
  rw [cpu.MatMul_eq xout x w n d (by omega) (by omega) (by rw [hw, Nat.mul_comm])]
  have e : List.drop d xout = [] := by simp [← hout]
  rw [e, List.append_nil]
  congr 1
  apply List.map_congr_left
  intro i hi
  exact (rows i (List.mem_range.1 hi)).symm

/-- Witness for C1: the second end-to-end example, `n=2, d=3`. -/
theorem cpu_MatMul_sequential_rows_witness :
    cpu.MatMul (α := Int) [0, 0, 0] [3, 4] [1, 0, 0, 1, 2, 2] ((2 : Nat) : Int) ((3 : Nat) : Int)
      = (Ret.nil, (List.range 3).map (fun i => rowSum [1, 0, 0, 1, 2, 2] [3, 4] 2 i)) :=
  (cpu_MatMul_sequential_rows 2 3 [0, 0, 0] [3, 4] [1, 0, 0, 1, 2, 2] rfl rfl rfl).1

/-- C3: the launch geometry the code computes at the three sizes of the
specification.  The test in the code is inverted: a multiple of the group size
is launched as `(d, 1)` and a non-multiple as `(d / 64, 64)`, so `d = 128` gives
`(128, 1)`, `d = 100` gives `(1, 64)` and `d = 64` gives `(64, 1)`. -/
theorem launch_geometry_at_spec_sizes :
    blackcl.geometry 128 = (128, 1) ∧ opencl.geometry 128 = (128, 1) ∧
    blackcl.geometry 100 = (1, 64) ∧ opencl.geometry 100 = (1, 64) ∧
    blackcl.geometry 64 = (64, 1) ∧ opencl.geometry 64 = (64, 1) := by
  decide

/-- C4: when `len(xout) ≠ d`, `MatMul` of both GPU packages returns the
validation error and leaves the host slice and the whole backend state (the
device log, the allocation count and the buffer cache) as they were: no call
into the device library is made. -/
theorem gpu_MatMul_rejects_xout_length {α : Type} (env : Env α) (o : OpenCL)
    (xout x w : List α) (n d : Int) (h : (xout.length : Int) ≠ d) :
    blackcl.MatMul env o xout x w n d = (Ret.err (Error.xoutLength d xout.length), xout, o) ∧
    opencl.MatMul env o xout x w n d = (Ret.err (Error.xoutLength d xout.length), xout, o) := by
  constructor
  · simp [blackcl.MatMul, h]
  · simp [opencl.MatMul, h]

/-- Witness for C4: `len(xout) = 3`, `d = 2`. -/
theorem gpu_MatMul_rejects_xout_length_witness :
    blackcl.MatMul quietEnv oneBuffer [0, 0, 0] [1, 1, 1, 1] [1, 2, 3, 4, 5, 6, 7, 8] 4 2
      = (Ret.err (Error.xoutLength 2 3), [0, 0, 0], oneBuffer) ∧
    opencl.MatMul quietEnv oneBuffer [0, 0, 0] [1, 1, 1, 1] [1, 2, 3, 4, 5, 6, 7, 8] 4 2
      = (Ret.err (Error.xoutLength 2 3), [0, 0, 0], oneBuffer) :=
  gpu_MatMul_rejects_xout_length quietEnv oneBuffer [0, 0, 0] [1, 1, 1, 1]
    [1, 2, 3, 4, 5, 6, 7, 8] 4 2 (by decide)

/-- C5: in every execution of `MatMul` of both GPU packages, whatever is logged
before a kernel dispatch contains the start of both input transfers and ends
with the successful resolution of both; and if a transfer resolves with an
error, the call returns an error and no dispatch is logged. -/
theorem gpu_MatMul_dispatch_after_transfers {α : Type} (env : Env α) (o : OpenCL)
    (xout x w : List α) (n d : Int) :
    (∃ evs, (blackcl.MatMul env o xout x w n d).2.2.device.log = o.device.log ++ evs ∧
      DispatchAfterTransfers x.length w.length evs (blackcl.MatMul env o xout x w n d).1) ∧
    (∃ evs, (opencl.MatMul env o xout x w n d).2.2.device.log = o.device.log ++ evs ∧
      DispatchAfterTransfers x.length w.length evs (opencl.MatMul env o xout x w n d).1) := by
  constructor
  · obtain ⟨evs, h1, -, h2⟩ := blackcl.MatMul_shape env o xout x w n d
    exact ⟨evs, h1, h2.dispatch⟩
  · obtain ⟨evs, h1, -, h2⟩ := opencl.MatMul_shape_devmem env o xout x w n d
    exact ⟨evs, h1, h2.dispatch⟩

/-- C6: from a well-formed cache (such as the empty one of `New`), for any
sequence of acquire calls, two successful calls return the identical buffer
if and only if they were made with the same `(tag, size)`, and a repeated
`(tag, size)` is answered from the cache without any change of state, so
without a new allocation (`Buffer` of blackcl and `AllocBuffer` of opencl). -/
theorem buffer_cache_reuse {α : Type} (env : Env α) (o : OpenCL)
    (calls : List (String × Int)) (wf : CacheWF o) :
    CacheReuse (blackcl.Buffer env) o calls ∧ CacheReuse (opencl.AllocBuffer env) o calls :=
  ⟨blackcl.Buffer_reuse env o calls wf, blackcl.Buffer_reuse env o calls wf⟩

/-- Witness for C6: five calls from `New` on a device whose third call fails;
the fourth repeats the first and the fifth retries the failed one. -/
theorem buffer_cache_reuse_witness :
    CacheWF New ∧
    (acquireAll (blackcl.Buffer (faultyEnv 2)) New
        [("x", 4), ("w", 8), ("x", 8), ("x", 4), ("x", 8)]).1
      = [Except.ok ⟨0, 4⟩, Except.ok ⟨1, 8⟩,
          Except.error (Error.wrap Site.createBuffer (Error.device 7)),
          Except.ok ⟨0, 4⟩, Except.ok ⟨2, 8⟩] ∧
    CacheReuse (blackcl.Buffer (faultyEnv 2)) New
      [("x", 4), ("w", 8), ("x", 8), ("x", 4), ("x", 8)] ∧
    CacheReuse (opencl.AllocBuffer (faultyEnv 2)) New
      [("x", 4), ("w", 8), ("x", 8), ("x", 4), ("x", 8)] :=
  ⟨CacheWF_New, rfl,
    buffer_cache_reuse (faultyEnv 2) New [("x", 4), ("w", 8), ("x", 8), ("x", 4), ("x", 8)]
      CacheWF_New⟩

/-- C7, counterexample: in the state `oneBuffer`, whose cache holds the buffer
`⟨0, 4⟩`, (a) when the session free fails `Release` returns at once and the
buffer is never freed, and (b) when the session free succeeds and the buffer
free fails `Release` returns `nil`. -/
theorem gpu_Release_not_best_effort :
    cached oneBuffer.bufferCache "x" 4 = some ⟨0, 4⟩ ∧
    blackcl.Release (faultyEnv 1) oneBuffer
      = (Ret.err (Error.wrap Site.releaseDevice (Error.device 7)),
          { device := ⟨1, [Event.newVector 4 (some ⟨0, 4⟩), Event.releaseDevice false]⟩,
            bufferCache := oneBuffer.bufferCache }) ∧
    opencl.Release (faultyEnv 1) oneBuffer
      = (Ret.err (Error.wrap Site.releaseDevice (Error.device 7)),
          { device := ⟨1, [Event.newVector 4 (some ⟨0, 4⟩), Event.releaseDevice false]⟩,
            bufferCache := oneBuffer.bufferCache }) ∧
    blackcl.Release (faultyEnv 2) oneBuffer
      = (Ret.nil,
          { device := ⟨1, [Event.newVector 4 (some ⟨0, 4⟩), Event.releaseDevice true, Event.releaseVector ⟨0, 4⟩ false]⟩,
            bufferCache := oneBuffer.bufferCache }) ∧
    opencl.Release (faultyEnv 2) oneBuffer
      = (Ret.nil,
          { device := ⟨1, [Event.newVector 4 (some ⟨0, 4⟩), Event.releaseDevice true, Event.releaseVector ⟨0, 4⟩ false]⟩,
            bufferCache := oneBuffer.bufferCache }) := by
  decide

/-- C7, amended: `Release` of both GPU packages frees the device session first.
When that free succeeds, it goes on to free every buffer held in the cache,
whether or not the individual buffer frees succeed, and returns `nil`.  When
that free fails, it returns that error, which is the first one encountered. -/
theorem gpu_Release_session_then_buffers {α : Type} (env : Env α) (o : OpenCL) :
    (env.fault o.device.log.length = none →
      ((blackcl.Release env o).1 = Ret.nil ∧
        ∃ evs, (blackcl.Release env o).2.device.log
            = o.device.log ++ Event.releaseDevice true :: evs ∧
          ∀ tm ∈ o.bufferCache, ∀ sv ∈ tm.2, ∃ ok, Event.releaseVector sv.2 ok ∈ evs) ∧
      ((opencl.Release env o).1 = Ret.nil ∧
        ∃ evs, (opencl.Release env o).2.device.log
            = o.device.log ++ Event.releaseDevice true :: evs ∧
          ∀ tm ∈ o.bufferCache, ∀ sv ∈ tm.2, ∃ ok, Event.releaseVector sv.2 ok ∈ evs)) ∧
    (∀ c, env.fault o.device.log.length = some c →
      ((blackcl.Release env o).1 = Ret.err (Error.wrap Site.releaseDevice (Error.device c)) ∧
        ∃ evs, (blackcl.Release env o).2.device.log
            = o.device.log ++ Event.releaseDevice false :: evs) ∧
      ((opencl.Release env o).1 = Ret.err (Error.wrap Site.releaseDevice (Error.device c)) ∧
        ∃ evs, (opencl.Release env o).2.device.log
            = o.device.log ++ Event.releaseDevice false :: evs)) := by
  have h := blackcl.Release_spec env o
  refine ⟨fun hf => ⟨h.1 hf, ?_⟩, fun c hf => ⟨h.2 c hf, ?_⟩⟩
  · rw [opencl.Release_eq]; exact h.1 hf
  · rw [opencl.Release_eq]; exact h.2 c hf

/-- Witness for C7, amended: the session free succeeds and the buffer free
fails (`faultyEnv 2` in state `oneBuffer`); and the session free fails
(`faultyEnv 1`). -/
theorem gpu_Release_session_then_buffers_witness :
    ((blackcl.Release (faultyEnv 2) oneBuffer).1 = Ret.nil ∧
      ∃ evs, (blackcl.Release (faultyEnv 2) oneBuffer).2.device.log
          = oneBuffer.device.log ++ Event.releaseDevice true :: evs ∧
        ∀ tm ∈ oneBuffer.bufferCache, ∀ sv ∈ tm.2, ∃ ok, Event.releaseVector sv.2 ok ∈ evs) ∧
    (blackcl.Release (faultyEnv 1) oneBuffer).1
      = Ret.err (Error.wrap Site.releaseDevice (Error.device 7)) :=
  ⟨((gpu_Release_session_then_buffers (faultyEnv 2) oneBuffer).1 (by decide)).1,
    ((gpu_Release_session_then_buffers (faultyEnv 1) oneBuffer).2 7 (by decide)).1.1⟩

/-- C8: for `MatMul` of both GPU packages, an error return (validation, buffer
allocation, transfer, kernel execution or read-back) leaves the host slice
`xout` element for element as it was; from a well-formed cache the call ends
either with an error or with `nil`, and with `nil` only when `len(xout) = d` and
all `d` elements of `xout` have been overwritten with the data read back. -/
theorem gpu_MatMul_error_leaves_xout {α : Type} (env : Env α) (o : OpenCL)
    (xout x w : List α) (n d : Int) :
    XoutAllOrNothing env o xout d (blackcl.MatMul env o xout x w n d) ∧
    XoutAllOrNothing env o xout d (opencl.MatMul env o xout x w n d) := by
  constructor
  · obtain ⟨evs, h1, -, h2⟩ := blackcl.MatMul_shape env o xout x w n d
    have h3 := h2.result
    refine ⟨h3.1, fun wf => ⟨(h3.2 wf).1, fun hr => ?_⟩⟩
    have h4 := (h3.2 wf).2 hr
    rw [h1, List.length_append]
    exact h4
  · obtain ⟨evs, h1, -, h2⟩ := opencl.MatMul_shape_devmem env o xout x w n d
    have h3 := h2.result
    refine ⟨h3.1, fun wf => ⟨(h3.2 wf).1, fun hr => ?_⟩⟩
    have h4 := (h3.2 wf).2 hr
    rw [h1, List.length_append]
    exact h4

/-- Witness for C8: a successful call from `New` overwrites both elements of
`xout`, and a call whose read-back fails (the tenth device call) leaves them. -/
theorem gpu_MatMul_error_leaves_xout_witness :
    CacheWF New ∧
    blackcl.MatMul quietEnv New [5, 5] [1, 1, 1, 1] [1, 2, 3, 4, 5, 6, 7, 8] 4 2
      = (Ret.nil, (List.range 2).map (quietEnv.mem 9),
          (blackcl.MatMul quietEnv New [5, 5] [1, 1, 1, 1] [1, 2, 3, 4, 5, 6, 7, 8] 4 2).2.2) ∧
    (opencl.MatMul (faultyEnv 9) New [5, 5] [1, 1, 1, 1] [1, 2, 3, 4, 5, 6, 7, 8] 4 2).2.1
      = [5, 5] :=
  ⟨CacheWF_New, by decide,
    (gpu_MatMul_error_leaves_xout (faultyEnv 9) New [5, 5] [1, 1, 1, 1]
      [1, 2, 3, 4, 5, 6, 7, 8] 4 2).2.1 (Error.wrap Site.xoutData (Error.device 7))
      (by decide)⟩

/-- C9, counterexample: with `len(xout) = 2` and `d = 1`, `cpu.MatMul` returns
`nil` after writing `xout[0]`; with `len(xout) = 1` and `d = 2` it panics at
`xout[1] = val`.  Neither call returns an error. -/
theorem cpu_MatMul_does_not_validate :
    (([0, 0] : List Int).length : Int) ≠ 1 ∧
    cpu.MatMul (α := Int) [0, 0] [1] [1] 1 1 = (Ret.nil, [1, 0]) ∧
    (([0] : List Int).length : Int) ≠ 2 ∧
    cpu.MatMul (α := Int) [0] [1] [1, 2] 1 2 = (Ret.panic, [1]) := by
  decide

/-- C9, amended: `cpu.MatMul` validates nothing and never returns an error.
With `len(xout) > d` (and `len(x) = n`, `len(w) = n*d`) it returns `nil`, having
written the `d` row sums to `xout[0..d)` and left `xout[d..)` as it was. -/
theorem cpu_MatMul_never_errors {α : Type} [Zero α] [Add α] [Mul α]
    (n d : Nat) (xout x w : List α)
    (hout : d < xout.length) (hx : x.length = n) (hw : w.length = n * d) :
    cpu.MatMul xout x w (n : Int) (d : Int)
        = (Ret.nil, (List.range d).map (fun i => seqDot (row w n i) x) ++ xout.drop d)
      ∧ ∀ (xout1 x1 w1 : List α) (n1 d1 : Int) (e : Error),
          (cpu.MatMul xout1 x1 w1 n1 d1).1 ≠ Ret.err e :=
  ⟨cpu.MatMul_eq xout x w n d (by omega) (by omega) (by rw [hw, Nat.mul_comm]),
    fun _ x1 w1 n1 _ e => cpu.outerLoop_ne_err x1 w1 n1 e _ _ _⟩

/-- Witness for C9, amended: `len(xout) = 2`, `d = 1`. -/
theorem cpu_MatMul_never_errors_witness :
    cpu.MatMul (α := Int) [0, 0] [1] [1] ((1 : Nat) : Int) ((1 : Nat) : Int)
      = (Ret.nil, (List.range 1).map (fun i => seqDot (row [1] 1 i) [1]) ++ [0]) :=
  (cpu_MatMul_never_errors 1 1 [0, 0] [1] [1] (by decide) rfl rfl).1

/-- C10: at `d = 100`, not a multiple of 64, the geometry the code computes is
`(1, 64)`: the launch covers `1 * 64 = 64` of the 100 output elements; at
`d = 1` it is `(0, 64)`; and a fault-free `MatMul` with `d = 2` dispatches the
kernel with global size `0`.  (Same inverted test as in C3.) -/
theorem launch_geometry_coverage_at_100 :
    (blackcl.geometry 100).1 * (blackcl.geometry 100).2 = 64 ∧
    (opencl.geometry 100).1 * (opencl.geometry 100).2 = 64 ∧
    (blackcl.geometry 1).1 * (blackcl.geometry 1).2 = 0 ∧
    (opencl.geometry 1).1 * (opencl.geometry 1).2 = 0 ∧
    Event.run 0 64 ⟨0, 2⟩ ⟨1, 4⟩ ⟨2, 8⟩ 4
      ∈ (blackcl.MatMul quietEnv New [5, 5] [1, 1, 1, 1]
          [1, 2, 3, 4, 5, 6, 7, 8] 4 2).2.2.device.log ∧
    Event.run 0 64 ⟨0, 2⟩ ⟨1, 4⟩ ⟨2, 8⟩ 4
      ∈ (opencl.MatMul quietEnv New [5, 5] [1, 1, 1, 1]
          [1, 2, 3, 4, 5, 6, 7, 8] 4 2).2.2.device.log := by
  decide

end Accelerated
